import Mathlib

/-!
Verification development for the `force-graph-canvas` repository: an
interactive force-directed graph rendered on a canvas, with drag / pan /
zoom interaction and an animated hover highlight.

The embedding translates `src/components/force_graph/types.rs`,
`src/components/force_graph/state.rs` and the pointer handlers of
`src/components/force_graph/component.rs` into Lean.  The source's `f64`
and `f32` arithmetic is embedded as exact rational arithmetic (`ℚ`); the
source compares `sqrt (dx*dx + dy*dy) < HIT_RADIUS`, which over exact
arithmetic is equivalent to the square-free comparison used here (a
bridging lemma `hitNear_iff_sqrt` records the equivalence against the
real square root).
-/

namespace ForceGraphCanvas

/-! ## Input data model (`types.rs`) -/

/-- A node of the input data (`types.rs::GraphNode`). -/
structure GraphNode where
  id : String
  label : Option String
  color : Option String
  group : Option ℕ
deriving Repr, DecidableEq

/-- A directed link of the input data (`types.rs::GraphLink`). -/
structure GraphLink where
  source : String
  target : String
deriving Repr, DecidableEq

/-- Complete input data (`types.rs::GraphData`). -/
structure GraphData where
  nodes : List GraphNode
  links : List GraphLink
deriving Repr, DecidableEq

/-! ## Simulation state (`state.rs`) -/

/-- `state.rs`: visual node radius. -/
def NODE_RADIUS : ℚ := 5

/-- `state.rs`: world-space hit-test radius. -/
def HIT_RADIUS : ℚ := 12

/-- `state.rs`: the palette used for group-based coloring. -/
def COLORS : List String :=
  ["#1f77b4", "#ff7f0e", "#2ca02c", "#d62728", "#9467bd", "#8c564b", "#e377c2", "#7f7f7f",
   "#bcbd22", "#17becf"]

/-- Per-node user payload (`state.rs::NodeInfo`). -/
structure NodeInfo where
  label : Option String
  color : String
deriving Repr, DecidableEq

/-- A node of the simulation graph: the `force_graph` crate's per-node data
(`NodeData { x, y, mass, is_anchor, user_data }`) together with the
crate-internal damped velocity state that the spec's integrator
description requires ("apply exponential damping to the resulting
velocity each tick"). -/
structure NodeData where
  x : ℚ
  y : ℚ
  vx : ℚ
  vy : ℚ
  mass : ℚ
  is_anchor : Bool
  user_data : NodeInfo
deriving Repr, DecidableEq

/-- `state.rs::ViewTransform`: screen = world * k + (x, y). -/
structure ViewTransform where
  x : ℚ
  y : ℚ
  k : ℚ
deriving Repr, DecidableEq

/-- `state.rs::DragState`. -/
structure DragState where
  active : Bool
  node_idx : Option ℕ
  start_x : ℚ
  start_y : ℚ
  node_start_x : ℚ
  node_start_y : ℚ
deriving Repr, DecidableEq

/-- `state.rs::PanState`. -/
structure PanState where
  active : Bool
  start_x : ℚ
  start_y : ℚ
  transform_start_x : ℚ
  transform_start_y : ℚ
deriving Repr, DecidableEq

/-- `state.rs::HoverState`. -/
structure HoverState where
  node : Option ℕ
  neighbors : Finset ℕ
  highlight_t : ℚ
  prev_node : Option ℕ
  prev_neighbors : Finset ℕ
  delay_t : ℚ
deriving DecidableEq

/-- `state.rs::ForceGraphState`.  The crate-owned `ForceGraph` is embedded
as the dense, insertion-ordered node list (the crate's `DefaultNodeIdx`
values are dense indices assigned in insertion order, embedded as the
position in this list).  `edges` is the state's own edge list, as in the
source. -/
structure ForceGraphState where
  nodes : List NodeData
  edges : List (ℕ × ℕ)
  transform : ViewTransform
  drag : DragState
  pan : PanState
  hover : HoverState
  width : ℚ
  height : ℚ
  animation_running : Bool
  flow_time : ℚ
deriving DecidableEq

/-- The id-to-index map built during construction: a `HashMap` filled by
`insert(node.id, idx)` in insertion order, so a later node with the same
id overwrites an earlier one.  Lookup therefore returns the index of the
last node carrying the id. -/
def idToIdx (nodes : List GraphNode) (id : String) : Option ℕ :=
  nodes.enum.foldl (fun acc p => if p.2.id = id then some p.1 else acc) none

/-- Node color resolution in `ForceGraphState::new`: an explicit color
wins; otherwise the palette entry `COLORS[group % COLORS.len()]`, or
`COLORS[0]` when no group is given. -/
def nodeColor (n : GraphNode) : String :=
  n.color.getD
    (match n.group with
     | some g => COLORS.getD (g % COLORS.length) "#1f77b4"
     | none => COLORS.getD 0 "#1f77b4")

/-- `state.rs::ForceGraphState::new`.

Modelled from the spec (initial placement only): the source places node
`i` at `(width/2 + 100·cos θᵢ, height/2 + 100·sin θᵢ)` with
`θᵢ = i·2π/n`, a transcendental placement with no exact rational value;
the placement is abstracted as the parameter `initPos`.  Everything else
follows the source: nodes added in input order with `mass = 10`,
`is_anchor = false` and resolved color; links resolved through the
id-to-index map, a link whose source or target id resolves to no node
adding no edge; the view transform starts at `(width/2, height/2, 1)`;
drag, pan and hover start from their `Default` values. -/
def ForceGraphState.new (initPos : ℕ → ℚ × ℚ) (data : GraphData) (width height : ℚ) :
    ForceGraphState where
  nodes := data.nodes.enum.map (fun p =>
    { x := (initPos p.1).1
      y := (initPos p.1).2
      vx := 0
      vy := 0
      mass := 10
      is_anchor := false
      user_data := { label := p.2.label, color := nodeColor p.2 } })
  edges := data.links.filterMap (fun l =>
    match idToIdx data.nodes l.source, idToIdx data.nodes l.target with
    | some src, some tgt => some (src, tgt)
    | _, _ => none)
  transform := { x := width / 2, y := height / 2, k := 1 }
  drag := { active := false, node_idx := none, start_x := 0, start_y := 0,
            node_start_x := 0, node_start_y := 0 }
  pan := { active := false, start_x := 0, start_y := 0,
           transform_start_x := 0, transform_start_y := 0 }
  hover := { node := none, neighbors := ∅, highlight_t := 0, prev_node := none,
             prev_neighbors := ∅, delay_t := 0 }
  width := width
  height := height
  animation_running := true
  flow_time := 0

/-- `state.rs::ForceGraphState::screen_to_graph`. -/
def ForceGraphState.screen_to_graph (s : ForceGraphState) (sx sy : ℚ) : ℚ × ℚ :=
  ((sx - s.transform.x) / s.transform.k, (sy - s.transform.y) / s.transform.k)

/-- The per-node test of `node_at_position`: the source compares
`sqrt (dx*dx + dy*dy) < HIT_RADIUS`; over exact arithmetic this equals
the squared comparison (see `hitNear_iff_sqrt`). -/
def hitNear (gx gy : ℚ) (n : NodeData) : Bool :=
  decide ((n.x - gx) ^ 2 + (n.y - gy) ^ 2 < HIT_RADIUS ^ 2)

/-- The `visit_nodes` scan of `node_at_position`: walk the nodes in
insertion order carrying the running index, overwriting `found` at every
node within the hit radius, so the last match wins. -/
def hitScan (gx gy : ℚ) : List NodeData → ℕ → Option ℕ → Option ℕ
  | [], _, found => found
  | n :: rest, i, found =>
      hitScan gx gy rest (i + 1) (if hitNear gx gy n then some i else found)

/-- `state.rs::ForceGraphState::node_at_position`. -/
def ForceGraphState.node_at_position (s : ForceGraphState) (sx sy : ℚ) : Option ℕ :=
  let p := s.screen_to_graph sx sy
  hitScan p.1 p.2 s.nodes 0 none

/-- One step of the neighbor collection loop of `set_hover`: an edge
leaving the hovered node contributes its target, otherwise an edge
arriving at it contributes its source. -/
def nbStep (idx : ℕ) (acc : Finset ℕ) (e : ℕ × ℕ) : Finset ℕ :=
  if e.1 = idx then insert e.2 acc
  else if e.2 = idx then insert e.1 acc
  else acc

/-- The neighbor collection loop of `set_hover` over the recorded edge
list. -/
def neighborsOf (edges : List (ℕ × ℕ)) (idx : ℕ) : Finset ℕ :=
  edges.foldl (nbStep idx) ∅

/-- `state.rs::ForceGraphState::set_hover`. -/
def ForceGraphState.set_hover (s : ForceGraphState) (node : Option ℕ) : ForceGraphState :=
  if s.hover.node = node then s
  else
    let was_hovering := s.hover.node.isSome
    let hover1 : HoverState :=
      if was_hovering ∧ node = none then
        { s.hover with prev_node := s.hover.node, prev_neighbors := s.hover.neighbors }
      else
        { s.hover with prev_node := none, prev_neighbors := ∅ }
    let hover2 : HoverState := { hover1 with node := node, neighbors := ∅ }
    match node with
    | some idx =>
        let hover3 : HoverState :=
          if was_hovering then hover2 else { hover2 with delay_t := 0 }
        { s with hover := { hover3 with neighbors := neighborsOf s.edges idx } }
    | none => { s with hover := hover2 }

/-- `state.rs::ForceGraphState::is_highlighted`. -/
def ForceGraphState.is_highlighted (s : ForceGraphState) (idx : ℕ) : Bool :=
  decide (s.hover.node = some idx ∨ idx ∈ s.hover.neighbors ∨
    s.hover.prev_node = some idx ∨ idx ∈ s.hover.prev_neighbors)

/-- `state.rs::ForceGraphState::is_hovered`. -/
def ForceGraphState.is_hovered (s : ForceGraphState) (idx : ℕ) : Bool :=
  decide (s.hover.node = some idx ∨ s.hover.prev_node = some idx)

/-- `state.rs::ForceGraphState::has_active_highlight`. -/
def ForceGraphState.has_active_highlight (s : ForceGraphState) : Bool :=
  decide (s.hover.node.isSome = true ∨ s.hover.prev_node.isSome = true)

/-! ## The integrator (the `force_graph` crate) -/

/-- `SimulationParameters::node_speed` passed in `new`. -/
def nodeSpeed : ℚ := 3000

/-- `SimulationParameters::damping_factor` passed in `new`. -/
def dampingFactor : ℚ := 9 / 10

/-- A mutating scan over the node list carrying the running node index,
the shape of the crate's `visit_nodes_mut` and of its per-node update
loop. -/
def visitScan (f : ℕ → NodeData → NodeData) : ℕ → List NodeData → List NodeData
  | _, [] => []
  | i, n :: rest => f i n :: visitScan f (i + 1) rest

/-- Modelled from the spec: `ForceGraph::update` of the `force_graph`
crate, a dependency whose source is not part of this repository.  Per the
spec (§4.2), the net force on a node accumulates inverse-distance charge
repulsion (clamped to `force_max`) and spring attraction over all other
nodes — a transcendental function of every position, abstracted here as
the parameter `netForce`.  The integration step itself follows the spec:
the net force is converted to a velocity delta through the node-speed
scale and the node's mass, the velocity is exponentially damped, the
position advances by `velocity * dt` — and nodes with `is_anchor = true`
are excluded from position updates while still exerting forces on
others. -/
def graphUpdate (netForce : ℕ → ℚ × ℚ) (dt : ℚ) (nodes : List NodeData) : List NodeData :=
  visitScan (fun i n =>
    if n.is_anchor then n
    else
      let f := netForce i
      let vx := (n.vx + f.1 / n.mass * nodeSpeed * dt) * dampingFactor
      let vy := (n.vy + f.2 / n.mass * nodeSpeed * dt) * dampingFactor
      { n with vx := vx, vy := vy, x := n.x + vx * dt, y := n.y + vy * dt }) 0 nodes

/-- `state.rs::ForceGraphState::tick` (with the crate's `update` taken as
`graphUpdate netForce`). -/
def ForceGraphState.tick (netForce : ℕ → ℚ × ℚ) (s : ForceGraphState) (dt : ℚ) :
    ForceGraphState :=
  let s1 := { s with nodes := graphUpdate netForce dt s.nodes,
                     flow_time := s.flow_time + dt }
  if s1.hover.node.isSome then
    let delay : ℚ := 2 / 25
    let speed : ℚ := 9 / 5
    let d := min (s1.hover.delay_t + dt) delay
    if d ≥ delay then
      let ht := s1.hover.highlight_t + (1 - s1.hover.highlight_t) * speed * dt
      { s1 with hover := { s1.hover with delay_t := d, highlight_t := ht } }
    else
      { s1 with hover := { s1.hover with delay_t := d } }
  else
    let speed : ℚ := 63 / 50
    let h := s1.hover.highlight_t + (0 - s1.hover.highlight_t) * speed * dt
    if h < 1 / 100 then
      { s1 with
        hover := { s1.hover with highlight_t := 0, prev_node := none, prev_neighbors := ∅ } }
    else
      { s1 with hover := { s1.hover with highlight_t := h } }

/-- `state.rs::ForceGraphState::resize`. -/
def ForceGraphState.resize (s : ForceGraphState) (width height : ℚ) : ForceGraphState :=
  { s with width := width, height := height }

/-- Modelled from the spec: `edgeIntensity(srcIdx, tgtIdx)` of the
highlight query surface (§4.5), whose module is not among the source
files of this repository (the present `state.rs` variant exposes only
`is_highlighted`).  Per the spec it is nonzero only if both endpoints are
part of the active or fading highlight set, scaled by the current eased
intensity. -/
def ForceGraphState.edge_intensity (s : ForceGraphState) (a b : ℕ) : ℚ :=
  if s.is_highlighted a && s.is_highlighted b then s.hover.highlight_t else 0

/-! ## Pointer handlers (`component.rs`) -/

/-- `component.rs::on_mousedown` (with `(x, y)` the canvas-relative
pointer position).  A hit starts a drag recording the press position and
the node's position at press time; a miss starts a pan recording the
press position and the transform at press time. -/
def on_mousedown (s : ForceGraphState) (x y : ℚ) : ForceGraphState :=
  match s.node_at_position x y with
  | some idx =>
      let nsx := match s.nodes[idx]? with
        | some n => n.x
        | none => s.drag.node_start_x
      let nsy := match s.nodes[idx]? with
        | some n => n.y
        | none => s.drag.node_start_y
      { s with drag := { active := true, node_idx := some idx, start_x := x, start_y := y,
                         node_start_x := nsx, node_start_y := nsy } }
  | none =>
      { s with pan := { active := true, start_x := x, start_y := y,
                        transform_start_x := s.transform.x,
                        transform_start_y := s.transform.y } }

/-- The `visit_nodes_mut` call of `on_mousemove`: set the dragged node's
position absolutely from the drag-start snapshot and mark it anchored. -/
def dragMoveNodes (idx : ℕ) (nx ny : ℚ) (nodes : List NodeData) : List NodeData :=
  visitScan (fun i n =>
    if i = idx then { n with x := nx, y := ny, is_anchor := true } else n) 0 nodes

/-- The `visit_nodes_mut` call of `on_mouseup`: mark the released node
anchored. -/
def anchorNode (idx : ℕ) (nodes : List NodeData) : List NodeData :=
  visitScan (fun i n => if i = idx then { n with is_anchor := true } else n) 0 nodes

/-- `component.rs::on_mousemove`.  Hover is re-hit-tested whenever a drag
is not active (including while panning); a drag moves the grabbed node by
the screen-space delta divided by the zoom; a pan moves the transform by
the raw screen-space delta. -/
def on_mousemove (s0 : ForceGraphState) (x y : ℚ) : ForceGraphState :=
  let s := if s0.drag.active then s0 else s0.set_hover (s0.node_at_position x y)
  if s.drag.active then
    match s.drag.node_idx with
    | some idx =>
        let dx := (x - s.drag.start_x) / s.transform.k
        let dy := (y - s.drag.start_y) / s.transform.k
        let newNodes := dragMoveNodes idx (s.drag.node_start_x + dx)
          (s.drag.node_start_y + dy) s.nodes
        { s with nodes := newNodes }
    | none => s
  else if s.pan.active then
    { s with transform := { s.transform with
        x := s.pan.transform_start_x + (x - s.pan.start_x),
        y := s.pan.transform_start_y + (y - s.pan.start_y) } }
  else s

/-- `component.rs::on_mouseup`: a released drag leaves `is_anchor = true`
on the dragged node; both drag and pan are cleared. -/
def on_mouseup (s : ForceGraphState) : ForceGraphState :=
  let s1 :=
    if s.drag.active then
      match s.drag.node_idx with
      | some idx => { s with nodes := anchorNode idx s.nodes }
      | none => s
    else s
  { s1 with drag := { s1.drag with active := false, node_idx := none },
            pan := { s1.pan with active := false } }

/-- `component.rs::on_mouseleave`: clear drag and pan, then clear
hover. -/
def on_mouseleave (s : ForceGraphState) : ForceGraphState :=
  ({ s with drag := { s.drag with active := false, node_idx := none },
            pan := { s.pan with active := false } }).set_hover none

/-- `component.rs::on_wheel`: multiplicative zoom step (×0.9 for
`deltaY > 0`, ×1.1 otherwise), clamped to `[0.1, 10]`, with the
translation adjusted so the world point under the pointer stays fixed. -/
def on_wheel (s : ForceGraphState) (x y delta_y : ℚ) : ForceGraphState :=
  let factor : ℚ := if delta_y > 0 then 9 / 10 else 11 / 10
  let new_k := min (max (s.transform.k * factor) (1 / 10)) 10
  let r := new_k / s.transform.k
  { s with transform := { x := x - (x - s.transform.x) * r,
                          y := y - (y - s.transform.y) * r,
                          k := new_k } }

/-- The pointer-event alphabet the canvas wires up
(`on:mousedown`, `on:mousemove`, `on:mouseup`, `on:mouseleave`,
`on:wheel`). -/
inductive PointerEvent where
  | down (x y : ℚ)
  | move (x y : ℚ)
  | up
  | leave
  | wheel (x y dy : ℚ)
deriving Repr, DecidableEq

/-- Dispatch one pointer event to its handler. -/
def applyEvent (s : ForceGraphState) : PointerEvent → ForceGraphState
  | .down x y => on_mousedown s x y
  | .move x y => on_mousemove s x y
  | .up => on_mouseup s
  | .leave => on_mouseleave s
  | .wheel x y dy => on_wheel s x y dy

/-- Well-formed pointer sequences: tracking whether a press is currently
held, a further `down` arrives only when no press is held; `up` and
`leave` release the press. -/
def wellFormedFrom (pressed : Bool) : List PointerEvent → Bool
  | [] => true
  | .down _ _ :: rest => !pressed && wellFormedFrom true rest
  | .up :: rest => wellFormedFrom false rest
  | .leave :: rest => wellFormedFrom false rest
  | .move _ _ :: rest => wellFormedFrom pressed rest
  | .wheel _ _ _ :: rest => wellFormedFrom pressed rest

/-! ## Lemmas: the node scans -/

theorem visitScan_length (f : ℕ → NodeData → NodeData) (i : ℕ) (ns : List NodeData) :
    (visitScan f i ns).length = ns.length := by
  induction ns generalizing i with
  | nil => rfl
  | cons n rest ih => simp [visitScan, ih]

theorem visitScan_getElem (f : ℕ → NodeData → NodeData) (i j : ℕ) (ns : List NodeData) :
    (visitScan f i ns)[j]? = (ns[j]?).map (f (i + j)) := by
  induction ns generalizing i j with
  | nil => simp [visitScan]
  | cons n rest ih =>
    cases j with
    | zero => simp [visitScan]
    | succ j' =>
      have hidx : i + (j' + 1) = (i + 1) + j' := by omega
      simp only [visitScan, List.getElem?_cons_succ, hidx]
      exact ih (i + 1) j'

theorem hitScan_no_hit (gx gy : ℚ) (ns : List NodeData) (i : ℕ) (acc : Option ℕ)
    (h : ∀ (k : ℕ) (n : NodeData), ns[k]? = some n → hitNear gx gy n = false) :
    hitScan gx gy ns i acc = acc := by
  induction ns generalizing i acc with
  | nil => rfl
  | cons n rest ih =>
    have h0 : hitNear gx gy n = false := h 0 n (by simp)
    simp only [hitScan, h0, Bool.false_eq_true, if_false]
    exact ih (i + 1) acc (fun k m hk => h (k + 1) m (by simpa using hk))

theorem hitScan_last_hit (gx gy : ℚ) (ns : List NodeData) (k : ℕ) (n : NodeData)
    (hk : ns[k]? = some n) (hhit : hitNear gx gy n = true)
    (hlast : ∀ (m : ℕ) (n' : NodeData), k < m → ns[m]? = some n' → hitNear gx gy n' = false) :
    ∀ i acc, hitScan gx gy ns i acc = some (i + k) := by
  induction ns generalizing k with
  | nil => simp at hk
  | cons a rest ih =>
    intro i acc
    cases k with
    | zero =>
      have ha : a = n := by simpa using hk
      have hhita : hitNear gx gy a = true := ha ▸ hhit
      simp only [hitScan, hhita, if_true]
      rw [hitScan_no_hit gx gy rest (i + 1) (some i)
        (fun m n' hm => hlast (m + 1) n' (by omega) (by simpa using hm))]
      simp
    | succ k' =>
      have hk' : rest[k']? = some n := by simpa using hk
      have hlast' : ∀ (m : ℕ) (n' : NodeData), k' < m → rest[m]? = some n' → hitNear gx gy n' = false :=
        fun m n' hm hmm => hlast (m + 1) n' (by omega) (by simpa using hmm)
      have := ih k' hk' hlast' (i + 1) (if hitNear gx gy a then some i else acc)
      simp only [hitScan]
      rw [this]
      congr 1
      omega

theorem exists_last_hit (gx gy : ℚ) (ns : List NodeData)
    (h : ∃ (k : ℕ) (n : NodeData), ns[k]? = some n ∧ hitNear gx gy n = true) :
    ∃ (k : ℕ) (n : NodeData), ns[k]? = some n ∧ hitNear gx gy n = true ∧
      ∀ (m : ℕ) (n' : NodeData), k < m → ns[m]? = some n' → hitNear gx gy n' = false := by
  induction ns with
  | nil =>
    obtain ⟨k, n, hk, _⟩ := h
    simp at hk
  | cons a rest ih =>
    by_cases hr : ∃ (k : ℕ) (n : NodeData), rest[k]? = some n ∧ hitNear gx gy n = true
    · obtain ⟨k, n, hk, hh, hl⟩ := ih hr
      refine ⟨k + 1, n, by simpa using hk, hh, ?_⟩
      intro m n' hm hmm
      cases m with
      | zero => omega
      | succ m' => exact hl m' n' (by omega) (by simpa using hmm)
    · obtain ⟨k, n, hk, hh⟩ := h
      cases k with
      | succ k' => exact absurd ⟨k', n, by simpa using hk, hh⟩ hr
      | zero =>
        have ha : a = n := by simpa using hk
        refine ⟨0, a, by simp, ha ▸ hh, ?_⟩
        intro m n' hm hmm
        cases m with
        | zero => omega
        | succ m' =>
          by_contra hcon
          exact hr ⟨m', n', by simpa using hmm, by simpa using hcon⟩

theorem hitScan_none_iff (gx gy : ℚ) (ns : List NodeData) :
    hitScan gx gy ns 0 none = none ↔
      ∀ (k : ℕ) (n : NodeData), ns[k]? = some n → hitNear gx gy n = false := by
  constructor
  · intro hres
    by_contra hcon
    push_neg at hcon
    obtain ⟨k, n, hk, hh⟩ := hcon
    obtain ⟨k', n', hk', hh', hl'⟩ :=
      exists_last_hit gx gy ns ⟨k, n, hk, by simpa using hh⟩
    rw [hitScan_last_hit gx gy ns k' n' hk' hh' hl' 0 none] at hres
    exact Option.noConfusion hres
  · exact hitScan_no_hit gx gy ns 0 none

theorem hitScan_some_iff (gx gy : ℚ) (ns : List NodeData) (j : ℕ) :
    hitScan gx gy ns 0 none = some j ↔
      (∃ n, ns[j]? = some n ∧ hitNear gx gy n = true) ∧
      ∀ (m : ℕ) (n' : NodeData), j < m → ns[m]? = some n' → hitNear gx gy n' = false := by
  constructor
  · intro hres
    by_cases hany : ∃ (k : ℕ) (n : NodeData), ns[k]? = some n ∧ hitNear gx gy n = true
    · obtain ⟨k, n, hk, hh, hl⟩ := exists_last_hit gx gy ns hany
      have hscan := hitScan_last_hit gx gy ns k n hk hh hl 0 none
      have hjk : j = k := by
        have h2 := hres.symm.trans hscan
        simp only [Option.some.injEq] at h2
        omega
      subst hjk
      exact ⟨⟨n, hk, hh⟩, hl⟩
    · rw [hitScan_no_hit gx gy ns 0 none] at hres
      · exact Option.noConfusion hres
      · intro k n hk
        by_contra hcon
        exact hany ⟨k, n, hk, by simpa using hcon⟩
  · rintro ⟨⟨n, hj, hh⟩, hl⟩
    simpa using hitScan_last_hit gx gy ns j n hj hh hl 0 none

/-- The pointer at world point `(gx, gy)` lies within the hit radius of
node `n`, stated with the source's Euclidean-distance comparison
`sqrt (dx*dx + dy*dy) < HIT_RADIUS` over the reals. -/
def WithinHit (gx gy : ℚ) (n : NodeData) : Prop :=
  Real.sqrt (((n.x - gx) ^ 2 + (n.y - gy) ^ 2 : ℚ) : ℝ) < ((HIT_RADIUS : ℚ) : ℝ)

/-- The squared comparison of `hitNear` agrees with the source's
Euclidean-distance comparison read over the reals. -/
theorem hitNear_iff_sqrt (gx gy : ℚ) (n : NodeData) :
    hitNear gx gy n = true ↔ WithinHit gx gy n := by
  rw [WithinHit, hitNear, decide_eq_true_eq,
    Real.sqrt_lt' (by norm_num [HIT_RADIUS] : (0 : ℝ) < ((HIT_RADIUS : ℚ) : ℝ))]
  constructor
  · intro h
    exact_mod_cast h
  · intro h
    exact_mod_cast h

/-! ## Lemmas: `set_hover` -/

theorem set_hover_drag (s : ForceGraphState) (o : Option ℕ) :
    (s.set_hover o).drag = s.drag := by
  unfold ForceGraphState.set_hover
  split
  · rfl
  · cases o <;> rfl

theorem set_hover_pan (s : ForceGraphState) (o : Option ℕ) :
    (s.set_hover o).pan = s.pan := by
  unfold ForceGraphState.set_hover
  split
  · rfl
  · cases o <;> rfl

theorem set_hover_transform (s : ForceGraphState) (o : Option ℕ) :
    (s.set_hover o).transform = s.transform := by
  unfold ForceGraphState.set_hover
  split
  · rfl
  · cases o <;> rfl

theorem set_hover_nodes (s : ForceGraphState) (o : Option ℕ) :
    (s.set_hover o).nodes = s.nodes := by
  unfold ForceGraphState.set_hover
  split
  · rfl
  · cases o <;> rfl

theorem set_hover_edges (s : ForceGraphState) (o : Option ℕ) :
    (s.set_hover o).edges = s.edges := by
  unfold ForceGraphState.set_hover
  split
  · rfl
  · cases o <;> rfl

theorem set_hover_hover_node (s : ForceGraphState) (o : Option ℕ) :
    (s.set_hover o).hover.node = o := by
  unfold ForceGraphState.set_hover
  split
  · assumption
  · cases o with
    | some idx =>
      dsimp only
      split <;> rfl
    | none => rfl

theorem set_hover_neighbors_of_ne (s : ForceGraphState) (idx : ℕ)
    (h : s.hover.node ≠ some idx) :
    (s.set_hover (some idx)).hover.neighbors = neighborsOf s.edges idx := by
  unfold ForceGraphState.set_hover
  rw [if_neg h]

/-! ## Lemmas: `neighborsOf` -/

theorem mem_foldl_nbStep_of_mem (idx : ℕ) (edges : List (ℕ × ℕ)) (acc : Finset ℕ)
    (x : ℕ) (hx : x ∈ acc) : x ∈ edges.foldl (nbStep idx) acc := by
  induction edges generalizing acc with
  | nil => exact hx
  | cons e rest ih =>
    apply ih
    unfold nbStep
    split
    · exact Finset.mem_insert_of_mem hx
    · split
      · exact Finset.mem_insert_of_mem hx
      · exact hx

theorem mem_foldl_nbStep_left (a b : ℕ) (edges : List (ℕ × ℕ)) :
    ∀ acc : Finset ℕ, (a, b) ∈ edges → b ∈ edges.foldl (nbStep a) acc := by
  induction edges with
  | nil =>
    intro acc h
    simp at h
  | cons e rest ih =>
    intro acc h
    rw [List.foldl_cons]
    rcases List.mem_cons.mp h with he | hrest
    · subst he
      apply mem_foldl_nbStep_of_mem
      unfold nbStep
      simp
    · exact ih _ hrest

theorem mem_foldl_nbStep_right (a b : ℕ) (edges : List (ℕ × ℕ)) :
    ∀ acc : Finset ℕ, (a, b) ∈ edges → a ∈ edges.foldl (nbStep b) acc := by
  induction edges with
  | nil =>
    intro acc h
    simp at h
  | cons e rest ih =>
    intro acc h
    rw [List.foldl_cons]
    rcases List.mem_cons.mp h with he | hrest
    · subst he
      apply mem_foldl_nbStep_of_mem
      unfold nbStep
      by_cases hab : a = b
      · subst hab
        simp
      · simp [hab]
    · exact ih _ hrest

theorem mem_neighborsOf_left (edges : List (ℕ × ℕ)) (a b : ℕ) (h : (a, b) ∈ edges) :
    b ∈ neighborsOf edges a :=
  mem_foldl_nbStep_left a b edges ∅ h

theorem mem_neighborsOf_right (edges : List (ℕ × ℕ)) (a b : ℕ) (h : (a, b) ∈ edges) :
    a ∈ neighborsOf edges b :=
  mem_foldl_nbStep_right a b edges ∅ h

/-! ## Lemmas: `tick` -/

theorem tick_nodes (nf : ℕ → ℚ × ℚ) (s : ForceGraphState) (dt : ℚ) :
    (s.tick nf dt).nodes = graphUpdate nf dt s.nodes := by
  unfold ForceGraphState.tick
  dsimp only
  split
  · split <;> rfl
  · split <;> rfl

theorem tick_hover_node (nf : ℕ → ℚ × ℚ) (s : ForceGraphState) (dt : ℚ) :
    (s.tick nf dt).hover.node = s.hover.node := by
  unfold ForceGraphState.tick
  dsimp only
  split
  · split <;> rfl
  · split <;> rfl

theorem tick_hover_neighbors (nf : ℕ → ℚ × ℚ) (s : ForceGraphState) (dt : ℚ) :
    (s.tick nf dt).hover.neighbors = s.hover.neighbors := by
  unfold ForceGraphState.tick
  dsimp only
  split
  · split <;> rfl
  · split <;> rfl

theorem tick_edges (nf : ℕ → ℚ × ℚ) (s : ForceGraphState) (dt : ℚ) :
    (s.tick nf dt).edges = s.edges := by
  unfold ForceGraphState.tick
  dsimp only
  split
  · split <;> rfl
  · split <;> rfl

/-! ## Lemmas: `node_at_position` characterized -/

theorem node_at_position_some_iff (s : ForceGraphState) (sx sy : ℚ) (j : ℕ) :
    s.node_at_position sx sy = some j ↔
      (∃ n : NodeData, s.nodes[j]? = some n ∧
        WithinHit (s.screen_to_graph sx sy).1 (s.screen_to_graph sx sy).2 n) ∧
      ∀ (m : ℕ) (n' : NodeData), j < m → s.nodes[m]? = some n' →
        ¬WithinHit (s.screen_to_graph sx sy).1 (s.screen_to_graph sx sy).2 n' := by
  unfold ForceGraphState.node_at_position
  rw [hitScan_some_iff]
  simp only [← hitNear_iff_sqrt, Bool.not_eq_true]

theorem node_at_position_none_iff (s : ForceGraphState) (sx sy : ℚ) :
    s.node_at_position sx sy = none ↔
      ∀ (k : ℕ) (n : NodeData), s.nodes[k]? = some n →
        ¬WithinHit (s.screen_to_graph sx sy).1 (s.screen_to_graph sx sy).2 n := by
  unfold ForceGraphState.node_at_position
  rw [hitScan_none_iff]
  simp only [← hitNear_iff_sqrt, Bool.not_eq_true]

/-! ## Lemmas: handler shapes -/

theorem on_mousedown_hit (s : ForceGraphState) (x y : ℚ) (idx : ℕ) (n : NodeData)
    (hhit : s.node_at_position x y = some idx) (hn : s.nodes[idx]? = some n) :
    on_mousedown s x y =
      { s with drag := { active := true, node_idx := some idx, start_x := x, start_y := y,
                         node_start_x := n.x, node_start_y := n.y } } := by
  unfold on_mousedown
  rw [hhit]
  dsimp only
  rw [hn]

theorem on_mousedown_miss (s : ForceGraphState) (x y : ℚ)
    (hmiss : s.node_at_position x y = none) :
    on_mousedown s x y =
      { s with pan := { active := true, start_x := x, start_y := y,
                        transform_start_x := s.transform.x,
                        transform_start_y := s.transform.y } } := by
  unfold on_mousedown
  rw [hmiss]

theorem anchorNode_getElem (idx j : ℕ) (ns : List NodeData) :
    (anchorNode idx ns)[j]? =
      (ns[j]?).map (fun n => if j = idx then { n with is_anchor := true } else n) := by
  unfold anchorNode
  simpa using visitScan_getElem _ 0 j ns

theorem dragMoveNodes_getElem (idx : ℕ) (nx ny : ℚ) (j : ℕ) (ns : List NodeData) :
    (dragMoveNodes idx nx ny ns)[j]? =
      (ns[j]?).map
        (fun n => if j = idx then { n with x := nx, y := ny, is_anchor := true } else n) := by
  unfold dragMoveNodes
  simpa using visitScan_getElem _ 0 j ns

theorem graphUpdate_anchored (nf : ℕ → ℚ × ℚ) (dt : ℚ) (ns : List NodeData) (j : ℕ)
    (a : NodeData) (hj : ns[j]? = some a) (ha : a.is_anchor = true) :
    (graphUpdate nf dt ns)[j]? = some a := by
  unfold graphUpdate
  rw [visitScan_getElem, hj]
  simp [ha]

/-! ## C2 — zoom-at-point fixpoint -/

/-- C2.  Zoom-at-point fixpoint: for every view transform with
`k ∈ [0.1, 10]` and every wheel event at screen point `(px, py)`, the
world point under the pointer is preserved — `screen_to_graph (px, py)`
computed before and after `on_wheel` are exactly equal (hence differ by
less than any epsilon), for zoom-in and zoom-out alike, including when
the new `k` is clamped. -/
theorem zoom_fix_aux (X k nk px : ℚ) (hk : k ≠ 0) (hnk : nk ≠ 0) :
    (px - (px - (px - X) * (nk / k))) / nk = (px - X) / k := by
  field_simp
  ring

theorem c2_zoom_at_point_fixpoint (s : ForceGraphState) (px py delta_y : ℚ)
    (hk1 : 1 / 10 ≤ s.transform.k) (_hk2 : s.transform.k ≤ 10) :
    (on_wheel s px py delta_y).screen_to_graph px py = s.screen_to_graph px py := by
  have hk0 : s.transform.k ≠ 0 := ne_of_gt (lt_of_lt_of_le (by norm_num) hk1)
  have hnk : (1 : ℚ) / 10 ≤
      min (max (s.transform.k * (if delta_y > 0 then 9 / 10 else 11 / 10)) (1 / 10)) 10 :=
    le_min (le_max_right _ _) (by norm_num)
  have hnk0 :
      min (max (s.transform.k * (if delta_y > 0 then 9 / 10 else 11 / 10)) (1 / 10)) 10 ≠ 0 :=
    ne_of_gt (lt_of_lt_of_le (by norm_num) hnk)
  unfold on_wheel ForceGraphState.screen_to_graph
  dsimp only
  simp only [Prod.mk.injEq]
  exact ⟨zoom_fix_aux _ _ _ _ hk0 hnk0, zoom_fix_aux _ _ _ _ hk0 hnk0⟩

/-- C2 witness at a concrete state: the construction-time transform has
`k = 1`, and a zoom-out wheel event at `(50, 50)` leaves the world point
under the pointer unchanged. -/
theorem c2_zoom_at_point_fixpoint_witness :
    (1 : ℚ) / 10 ≤ (ForceGraphState.new (fun _ => (0, 0)) ⟨[], []⟩ 100 100).transform.k ∧
    (ForceGraphState.new (fun _ => (0, 0)) ⟨[], []⟩ 100 100).transform.k ≤ 10 ∧
    (on_wheel (ForceGraphState.new (fun _ => (0, 0)) ⟨[], []⟩ 100 100) 50 50
        100).screen_to_graph 50 50 =
      (ForceGraphState.new (fun _ => (0, 0)) ⟨[], []⟩ 100 100).screen_to_graph 50 50 :=
  ⟨by norm_num [ForceGraphState.new], by norm_num [ForceGraphState.new],
   c2_zoom_at_point_fixpoint _ 50 50 100 (by norm_num [ForceGraphState.new])
     (by norm_num [ForceGraphState.new])⟩

/-! ## C5 — hit-test semantics -/

/-- C5.  `node_at_position (sx, sy)` converts the pointer to world
coordinates via `screen_to_graph` and returns `some j` exactly when node
`j` is the last node in insertion order whose Euclidean world-space
distance to that point is strictly below the fixed hit radius; when no
node is within the radius it returns `none` (no error), and the caller
(`on_mousedown`) interprets that as pan-start.  The hit radius `12` is
larger than the visual node radius `5`. -/
theorem c5_hit_test_semantics (s : ForceGraphState) (sx sy : ℚ) :
    (∀ j : ℕ, s.node_at_position sx sy = some j ↔
        (∃ n : NodeData, s.nodes[j]? = some n ∧
          WithinHit (s.screen_to_graph sx sy).1 (s.screen_to_graph sx sy).2 n) ∧
        ∀ (m : ℕ) (n' : NodeData), j < m → s.nodes[m]? = some n' →
          ¬WithinHit (s.screen_to_graph sx sy).1 (s.screen_to_graph sx sy).2 n') ∧
    (s.node_at_position sx sy = none ↔
      ∀ (k : ℕ) (n : NodeData), s.nodes[k]? = some n →
        ¬WithinHit (s.screen_to_graph sx sy).1 (s.screen_to_graph sx sy).2 n) ∧
    NODE_RADIUS < HIT_RADIUS ∧
    (s.node_at_position sx sy = none →
      (on_mousedown s sx sy).pan.active = true ∧
      (on_mousedown s sx sy).drag = s.drag ∧
      (on_mousedown s sx sy).nodes = s.nodes) := by
  refine ⟨fun j => node_at_position_some_iff s sx sy j,
    node_at_position_none_iff s sx sy,
    by norm_num [NODE_RADIUS, HIT_RADIUS], fun hmiss => ?_⟩
  rw [on_mousedown_miss s sx sy hmiss]
  exact ⟨rfl, rfl, rfl⟩

/-- C5 witness: on a one-node state, the hit test at the node's screen
position returns the node, the hit test far away returns `none`, and the
miss starts a pan. -/
theorem c5_hit_test_semantics_witness :
    (ForceGraphState.new (fun _ => (0, 0)) ⟨[⟨"a", none, none, none⟩], []⟩ 0
        0).node_at_position 0 0 = some 0 ∧
    (ForceGraphState.new (fun _ => (0, 0)) ⟨[⟨"a", none, none, none⟩], []⟩ 0
        0).node_at_position 100 100 = none ∧
    (on_mousedown (ForceGraphState.new (fun _ => (0, 0)) ⟨[⟨"a", none, none, none⟩], []⟩ 0 0)
        100 100).pan.active = true := by
  have hsome :
      (ForceGraphState.new (fun _ => (0, 0)) ⟨[⟨"a", none, none, none⟩], []⟩ 0
        0).node_at_position 0 0 = some 0 := by
    norm_num [ForceGraphState.new, ForceGraphState.node_at_position, ForceGraphState.screen_to_graph, hitScan, hitNear, HIT_RADIUS, List.enum, List.enumFrom, nodeColor, COLORS]
  have hnone :
      (ForceGraphState.new (fun _ => (0, 0)) ⟨[⟨"a", none, none, none⟩], []⟩ 0
        0).node_at_position 100 100 = none := by
    norm_num [ForceGraphState.new, ForceGraphState.node_at_position, ForceGraphState.screen_to_graph, hitScan, hitNear, HIT_RADIUS, List.enum, List.enumFrom, nodeColor, COLORS]
  exact ⟨hsome, hnone,
    ((c5_hit_test_semantics _ 100 100).2.2.2 hnone).1⟩

/-! ## C10 — a bare click anchors the node -/

/-- C10.  A mouse-down hitting node `idx` followed immediately by a
mouse-up with no intervening mouse-move sets that node's `is_anchor` to
`true` while leaving its position (and every other node) unchanged, and
clears the drag state. -/
theorem c10_bare_click_anchors (s : ForceGraphState) (x y : ℚ) (idx : ℕ) (n : NodeData)
    (hhit : s.node_at_position x y = some idx) (hn : s.nodes[idx]? = some n) :
    (on_mouseup (on_mousedown s x y)).nodes[idx]? = some { n with is_anchor := true } ∧
    (∀ j : ℕ, j ≠ idx → (on_mouseup (on_mousedown s x y)).nodes[j]? = s.nodes[j]?) ∧
    (on_mouseup (on_mousedown s x y)).drag.active = false ∧
    (on_mouseup (on_mousedown s x y)).drag.node_idx = none ∧
    (on_mouseup (on_mousedown s x y)).pan.active = false := by
  rw [on_mousedown_hit s x y idx n hhit hn]
  unfold on_mouseup
  dsimp only
  rw [if_pos rfl]
  refine ⟨?_, fun j hj => ?_, rfl, rfl, rfl⟩
  · rw [anchorNode_getElem, hn]
    simp
  · rw [anchorNode_getElem]
    simp [hj]

/-- C10 witness: clicking the single node of a one-node state anchors it
in place. -/
theorem c10_bare_click_anchors_witness :
    (ForceGraphState.new (fun _ => (0, 0)) ⟨[⟨"a", none, none, none⟩], []⟩ 0
        0).node_at_position 0 0 = some 0 ∧
    (ForceGraphState.new (fun _ => (0, 0)) ⟨[⟨"a", none, none, none⟩], []⟩ 0
        0).nodes[0]? =
      some { x := 0, y := 0, vx := 0, vy := 0, mass := 10, is_anchor := false,
             user_data := { label := none, color := "#1f77b4" } } ∧
    (on_mouseup (on_mousedown
        (ForceGraphState.new (fun _ => (0, 0)) ⟨[⟨"a", none, none, none⟩], []⟩ 0 0) 0
        0)).nodes[0]? =
      some { x := 0, y := 0, vx := 0, vy := 0, mass := 10, is_anchor := true,
             user_data := { label := none, color := "#1f77b4" } } := by
  have hhit :
      (ForceGraphState.new (fun _ => (0, 0)) ⟨[⟨"a", none, none, none⟩], []⟩ 0
        0).node_at_position 0 0 = some 0 := by
    norm_num [ForceGraphState.new, ForceGraphState.node_at_position, ForceGraphState.screen_to_graph, hitScan, hitNear, HIT_RADIUS, List.enum, List.enumFrom, nodeColor, COLORS]
  have hn :
      (ForceGraphState.new (fun _ => (0, 0)) ⟨[⟨"a", none, none, none⟩], []⟩ 0
        0).nodes[0]? =
      some { x := 0, y := 0, vx := 0, vy := 0, mass := 10, is_anchor := false,
             user_data := { label := none, color := "#1f77b4" } } := by
    norm_num [ForceGraphState.new, ForceGraphState.node_at_position, ForceGraphState.screen_to_graph, hitScan, hitNear, HIT_RADIUS, List.enum, List.enumFrom, nodeColor, COLORS]
  exact ⟨hhit, hn, (c10_bare_click_anchors _ 0 0 0 _ hhit hn).1⟩

/-! ## C9 — silent drop of unresolvable links -/

theorem idToIdx_lt (nodes : List GraphNode) (id : String) (i : ℕ)
    (h : idToIdx nodes id = some i) : i < nodes.length := by
  unfold idToIdx at h
  suffices hgen : ∀ (ps : List (ℕ × GraphNode)) (acc : Option ℕ),
      (∀ j : ℕ, acc = some j → j < nodes.length) →
      (∀ p ∈ ps, p.1 < nodes.length) →
      ∀ j : ℕ,
        ps.foldl (fun acc p => if p.2.id = id then some p.1 else acc) acc = some j →
        j < nodes.length by
    refine hgen nodes.enum none (by simp) ?_ i h
    intro p hp
    rw [List.mem_enum_iff_getElem?] at hp
    exact (List.getElem?_eq_some.mp hp).1
  intro ps
  induction ps with
  | nil =>
    intro acc hacc _ j hj
    exact hacc j hj
  | cons p rest ih =>
    intro acc hacc hmem j hj
    rw [List.foldl_cons] at hj
    refine ih _ ?_ (fun q hq => hmem q (List.mem_cons_of_mem p hq)) j hj
    intro j' hj'
    split at hj'
    · cases hj'
      exact hmem p (List.mem_cons_self p rest)
    · exact hacc j' hj'

theorem resolveLinks_eq (ns : List GraphNode) (links : List GraphLink) :
    links.filterMap (fun l =>
      match idToIdx ns l.source, idToIdx ns l.target with
      | some src, some tgt => some (src, tgt)
      | _, _ => none) =
    (links.filter (fun l =>
      (idToIdx ns l.source).isSome && (idToIdx ns l.target).isSome)).map
      (fun l => ((idToIdx ns l.source).getD 0, (idToIdx ns l.target).getD 0)) := by
  induction links with
  | nil => rfl
  | cons l rest ih =>
    rw [List.filterMap_cons, List.filter_cons]
    cases h1 : idToIdx ns l.source with
    | none => simpa [h1] using ih
    | some a =>
      cases h2 : idToIdx ns l.target with
      | none => simpa [h1, h2] using ih
      | some b => simpa [h1, h2] using ih

/-- C9.  Constructing the state from graph data raises no error and:
every input node yields a simulation node; the edge list is exactly the
input links whose two endpoint ids both resolve through the id-to-index
map, converted to index pairs in input order (so a link whose source or
target id matches no node contributes no edge); and every recorded edge
endpoint is a valid node index. -/
theorem c9_silent_drop_of_unresolvable_links (initPos : ℕ → ℚ × ℚ) (data : GraphData)
    (width height : ℚ) :
    (ForceGraphState.new initPos data width height).nodes.length = data.nodes.length ∧
    (ForceGraphState.new initPos data width height).edges =
      (data.links.filter (fun l =>
        (idToIdx data.nodes l.source).isSome && (idToIdx data.nodes l.target).isSome)).map
        (fun l => ((idToIdx data.nodes l.source).getD 0,
                   (idToIdx data.nodes l.target).getD 0)) ∧
    ∀ e ∈ (ForceGraphState.new initPos data width height).edges,
      e.1 < data.nodes.length ∧ e.2 < data.nodes.length := by
  refine ⟨by simp [ForceGraphState.new], ?_, ?_⟩
  · exact resolveLinks_eq data.nodes data.links
  · intro e he
    have he' : e ∈ data.links.filterMap (fun l =>
        match idToIdx data.nodes l.source, idToIdx data.nodes l.target with
        | some src, some tgt => some (src, tgt)
        | _, _ => none) := he
    rw [List.mem_filterMap] at he'
    obtain ⟨l, _, hres⟩ := he'
    cases h1 : idToIdx data.nodes l.source with
    | none => rw [h1] at hres; exact absurd hres (by simp)
    | some a =>
      cases h2 : idToIdx data.nodes l.target with
      | none => rw [h1, h2] at hres; exact absurd hres (by simp)
      | some b =>
        rw [h1, h2] at hres
        have he2 : e = (a, b) := by simpa using hres.symm
        subst he2
        exact ⟨idToIdx_lt data.nodes l.source a h1, idToIdx_lt data.nodes l.target b h2⟩

/-- C9 witness: concrete data with one unresolvable link (`"c"` matches
no node): the two resolvable links survive in input order, the
unresolvable one is dropped, and both nodes are added. -/
theorem c9_silent_drop_of_unresolvable_links_witness :
    (ForceGraphState.new (fun _ => (0, 0))
        ⟨[⟨"a", none, none, none⟩, ⟨"b", none, none, none⟩],
         [⟨"a", "b"⟩, ⟨"a", "c"⟩, ⟨"b", "a"⟩]⟩ 0 0).nodes.length = 2 ∧
    (ForceGraphState.new (fun _ => (0, 0))
        ⟨[⟨"a", none, none, none⟩, ⟨"b", none, none, none⟩],
         [⟨"a", "b"⟩, ⟨"a", "c"⟩, ⟨"b", "a"⟩]⟩ 0 0).edges = [(0, 1), (1, 0)] := by
  have h := c9_silent_drop_of_unresolvable_links (fun _ => (0, 0))
    ⟨[⟨"a", none, none, none⟩, ⟨"b", none, none, none⟩],
     [⟨"a", "b"⟩, ⟨"a", "c"⟩, ⟨"b", "a"⟩]⟩ 0 0
  refine ⟨h.1, ?_⟩
  rw [h.2.1]
  simp +decide [idToIdx, List.enum, List.enumFrom, List.filter_cons, List.filter_nil]

/-! ## C8 — panning frame effect -/

/-- A concrete state with an active pan: a one-node graph pressed at
`(100, 100)`, far from the node at world `(0, 0)` (the construction-time
transform is `(0, 0, 1)` for a zero-sized canvas), so the press misses
and starts a pan. -/
def panningState : ForceGraphState :=
  on_mousedown
    (ForceGraphState.new (fun _ => (0, 0)) ⟨[⟨"a", none, none, none⟩], []⟩ 0 0) 100 100

/-- C8 counterexample: in `panningState` the pan is active, the drag is
not, and nothing is hovered — yet a mouse-move to the node's screen
position changes the hover target to that node, refuting "the hover
target is unchanged by a move while panning". -/
theorem c8_counterexample :
    panningState.pan.active = true ∧ panningState.drag.active = false ∧
    panningState.hover.node = none ∧
    (on_mousemove panningState 0 0).hover.node = some 0 := by
  have hpan : panningState.pan.active = true := by
    norm_num [panningState, on_mousedown, ForceGraphState.new,
      ForceGraphState.node_at_position, ForceGraphState.screen_to_graph, hitScan, hitNear,
      HIT_RADIUS, List.enum, List.enumFrom]
  have hdrag : panningState.drag.active = false := by
    norm_num [panningState, on_mousedown, ForceGraphState.new,
      ForceGraphState.node_at_position, ForceGraphState.screen_to_graph, hitScan, hitNear,
      HIT_RADIUS, List.enum, List.enumFrom]
  have hhover : panningState.hover.node = none := by
    norm_num [panningState, on_mousedown, ForceGraphState.new,
      ForceGraphState.node_at_position, ForceGraphState.screen_to_graph, hitScan, hitNear,
      HIT_RADIUS, List.enum, List.enumFrom]
  refine ⟨hpan, hdrag, hhover, ?_⟩
  have hmove : (on_mousemove panningState 0 0).hover.node =
      (panningState.set_hover (panningState.node_at_position 0 0)).hover.node := by
    unfold on_mousemove
    rw [hdrag]
    simp only [Bool.false_eq_true, if_false, set_hover_drag, hdrag]
    rw [set_hover_pan, hpan, if_pos rfl]
  rw [hmove, set_hover_hover_node]
  norm_num [panningState, on_mousedown, ForceGraphState.new,
    ForceGraphState.node_at_position, ForceGraphState.screen_to_graph, hitScan, hitNear,
    HIT_RADIUS, List.enum, List.enumFrom]

/-- C8 (amended).  While pan is active and drag is not, a mouse-move sets
the view-transform translation to the pan-start transform plus the raw
screen-space pointer delta since the press (not divided by `k`), leaving
the zoom, every node position, and the drag and pan records unchanged —
but the hover target is *not* left unchanged: it is recomputed by
hit-testing at the new pointer position (hover updates whenever a drag is
not active, including while panning). -/
theorem c8_pan_move_frame_effect (s : ForceGraphState) (x y : ℚ)
    (hpan : s.pan.active = true) (hdrag : s.drag.active = false) :
    (on_mousemove s x y).transform.x = s.pan.transform_start_x + (x - s.pan.start_x) ∧
    (on_mousemove s x y).transform.y = s.pan.transform_start_y + (y - s.pan.start_y) ∧
    (on_mousemove s x y).transform.k = s.transform.k ∧
    (on_mousemove s x y).nodes = s.nodes ∧
    (on_mousemove s x y).drag = s.drag ∧
    (on_mousemove s x y).pan = s.pan ∧
    (on_mousemove s x y).hover = (s.set_hover (s.node_at_position x y)).hover := by
  have heq : on_mousemove s x y =
      { s.set_hover (s.node_at_position x y) with transform :=
          { (s.set_hover (s.node_at_position x y)).transform with
              x := (s.set_hover (s.node_at_position x y)).pan.transform_start_x +
                (x - (s.set_hover (s.node_at_position x y)).pan.start_x),
              y := (s.set_hover (s.node_at_position x y)).pan.transform_start_y +
                (y - (s.set_hover (s.node_at_position x y)).pan.start_y) } } := by
    unfold on_mousemove
    rw [hdrag]
    simp only [Bool.false_eq_true, if_false, set_hover_drag, hdrag]
    rw [set_hover_pan, hpan, if_pos rfl]
  rw [heq]
  refine ⟨?_, ?_, ?_, ?_, ?_, ?_, rfl⟩
  · rw [set_hover_pan]
  · rw [set_hover_pan]
  · rw [set_hover_transform]
  · rw [set_hover_nodes]
  · rw [set_hover_drag]
  · rw [set_hover_pan]

/-- C8 witness: the amended frame effect evaluated on `panningState` with
a move to `(3, 7)`. -/
theorem c8_pan_move_frame_effect_witness :
    panningState.pan.active = true ∧ panningState.drag.active = false ∧
    (on_mousemove panningState 3 7).transform.x =
      panningState.pan.transform_start_x + (3 - panningState.pan.start_x) ∧
    (on_mousemove panningState 3 7).nodes = panningState.nodes := by
  have hpan : panningState.pan.active = true := by
    norm_num [panningState, on_mousedown, ForceGraphState.new,
      ForceGraphState.node_at_position, ForceGraphState.screen_to_graph, hitScan, hitNear,
      HIT_RADIUS, List.enum, List.enumFrom]
  have hdrag : panningState.drag.active = false := by
    norm_num [panningState, on_mousedown, ForceGraphState.new,
      ForceGraphState.node_at_position, ForceGraphState.screen_to_graph, hitScan, hitNear,
      HIT_RADIUS, List.enum, List.enumFrom]
  have h := c8_pan_move_frame_effect panningState 3 7 hpan hdrag
  exact ⟨hpan, hdrag, h.1, h.2.2.2.1⟩

/-! ## C7 — drag/pan mutual exclusion -/

theorem on_mousemove_drag (s : ForceGraphState) (x y : ℚ) :
    (on_mousemove s x y).drag = s.drag := by
  unfold on_mousemove
  by_cases hd : s.drag.active = true
  · simp only [hd, if_true]
    cases hni : s.drag.node_idx with
    | some idx => simp [hni]
    | none => simp [hni]
  · have hd' : s.drag.active = false := by simpa using hd
    simp only [hd', Bool.false_eq_true, if_false, set_hover_drag]
    split
    · rfl
    · exact set_hover_drag s _

theorem on_mousemove_pan (s : ForceGraphState) (x y : ℚ) :
    (on_mousemove s x y).pan = s.pan := by
  unfold on_mousemove
  by_cases hd : s.drag.active = true
  · simp only [hd, if_true]
    cases hni : s.drag.node_idx with
    | some idx => simp [hni]
    | none => simp [hni]
  · have hd' : s.drag.active = false := by simpa using hd
    simp only [hd', Bool.false_eq_true, if_false, set_hover_drag]
    split
    · exact set_hover_pan s _
    · exact set_hover_pan s _

theorem on_mousedown_cases (s : ForceGraphState) (x y : ℚ) :
    ((on_mousedown s x y).drag.active = true ∧ (on_mousedown s x y).pan = s.pan) ∨
    ((on_mousedown s x y).pan.active = true ∧ (on_mousedown s x y).drag = s.drag) := by
  unfold on_mousedown
  cases hh : s.node_at_position x y with
  | some idx => exact Or.inl ⟨rfl, rfl⟩
  | none => exact Or.inr ⟨rfl, rfl⟩

theorem on_mouseup_clears (s : ForceGraphState) :
    (on_mouseup s).drag.active = false ∧ (on_mouseup s).drag.node_idx = none ∧
    (on_mouseup s).pan.active = false := by
  unfold on_mouseup
  exact ⟨rfl, rfl, rfl⟩

theorem on_mouseleave_clears (s : ForceGraphState) :
    (on_mouseleave s).drag.active = false ∧ (on_mouseleave s).drag.node_idx = none ∧
    (on_mouseleave s).pan.active = false := by
  unfold on_mouseleave
  rw [set_hover_drag, set_hover_pan]
  exact ⟨rfl, rfl, rfl⟩

theorem on_wheel_drag_pan (s : ForceGraphState) (x y dy : ℚ) :
    (on_wheel s x y dy).drag = s.drag ∧ (on_wheel s x y dy).pan = s.pan :=
  ⟨rfl, rfl⟩

/-- The drag/pan exclusion invariant, coupled to whether a press is
currently held: drag and pan are never both active, and with no press
held both are inactive. -/
def ExclInv (pressed : Bool) (s : ForceGraphState) : Prop :=
  ¬(s.drag.active = true ∧ s.pan.active = true) ∧
  (pressed = false → s.drag.active = false ∧ s.pan.active = false)

theorem exclInv_foldl (evs : List PointerEvent) :
    ∀ (pressed : Bool) (s : ForceGraphState),
      wellFormedFrom pressed evs = true → ExclInv pressed s →
      ∃ pressed' : Bool, ExclInv pressed' (evs.foldl applyEvent s) := by
  induction evs with
  | nil => exact fun pressed s _ h => ⟨pressed, h⟩
  | cons e rest ih =>
    intro pressed s hwf hinv
    rw [List.foldl_cons]
    cases e with
    | down x y =>
      simp only [wellFormedFrom, Bool.and_eq_true, Bool.not_eq_true'] at hwf
      obtain ⟨hboth1, hboth2⟩ := hinv.2 hwf.1
      refine ih true (applyEvent s (.down x y)) hwf.2 ⟨?_, by simp⟩
      rcases on_mousedown_cases s x y with ⟨_, hp⟩ | ⟨_, hd⟩
      · intro hc
        rw [show applyEvent s (.down x y) = on_mousedown s x y from rfl] at hc
        rw [hp] at hc
        rw [hboth2] at hc
        exact Bool.false_ne_true hc.2
      · intro hc
        rw [show applyEvent s (.down x y) = on_mousedown s x y from rfl] at hc
        rw [hd] at hc
        rw [hboth1] at hc
        exact Bool.false_ne_true hc.1
    | move x y =>
      simp only [wellFormedFrom] at hwf
      refine ih pressed (applyEvent s (.move x y)) hwf ?_
      have hd := on_mousemove_drag s x y
      have hp := on_mousemove_pan s x y
      constructor
      · rw [show applyEvent s (.move x y) = on_mousemove s x y from rfl, hd, hp]
        exact hinv.1
      · intro h0
        rw [show applyEvent s (.move x y) = on_mousemove s x y from rfl, hd, hp]
        exact hinv.2 h0
    | up =>
      simp only [wellFormedFrom] at hwf
      refine ih false (applyEvent s .up) hwf ?_
      obtain ⟨h1, _, h2⟩ := on_mouseup_clears s
      exact ⟨fun hc => Bool.false_ne_true (h1 ▸ hc.1), fun _ => ⟨h1, h2⟩⟩
    | leave =>
      simp only [wellFormedFrom] at hwf
      refine ih false (applyEvent s .leave) hwf ?_
      obtain ⟨h1, _, h2⟩ := on_mouseleave_clears s
      exact ⟨fun hc => Bool.false_ne_true (h1 ▸ hc.1), fun _ => ⟨h1, h2⟩⟩
    | wheel x y dy =>
      simp only [wellFormedFrom] at hwf
      refine ih pressed (applyEvent s (.wheel x y dy)) hwf ?_
      obtain ⟨hd, hp⟩ := on_wheel_drag_pan s x y dy
      constructor
      · rw [show applyEvent s (.wheel x y dy) = on_wheel s x y dy from rfl, hd, hp]
        exact hinv.1
      · intro h0
        rw [show applyEvent s (.wheel x y dy) = on_wheel s x y dy from rfl, hd, hp]
        exact hinv.2 h0

/-- A one-node graph with a press on empty space followed — with no
intervening release — by a second press on the node, as a second mouse
button allows. -/
def doubleDownState : ForceGraphState :=
  [PointerEvent.down 100 100, PointerEvent.down 0 0].foldl applyEvent
    (ForceGraphState.new (fun _ => (0, 0)) ⟨[⟨"a", none, none, none⟩], []⟩ 0 0)

/-- C7 counterexample: after the event sequence
`[down (100,100), down (0,0)]` from the initial state — a legal sequence
of the claim's event alphabet — drag and pan are BOTH active: the first
press misses every node and starts a pan, the second hits the node and
starts a drag without clearing the pan. -/
theorem c7_counterexample :
    doubleDownState.drag.active = true ∧ doubleDownState.pan.active = true := by
  constructor <;>
    norm_num [doubleDownState, applyEvent, on_mousedown, ForceGraphState.new,
      ForceGraphState.node_at_position, ForceGraphState.screen_to_graph, hitScan, hitNear,
      HIT_RADIUS, List.enum, List.enumFrom]

/-- C7 (amended).  Starting from the initial state, after every
*well-formed* sequence of pointer events — one in which no second
mouse-down arrives while a press is already held (between two
mouse-downs there is a mouse-up or mouse-leave) — drag and pan are never
both active; a mouse-down from the all-inactive state starts exactly one
of drag (node hit) or pan (miss); and mouse-up and mouse-leave clear
both. -/
theorem c7_drag_pan_mutual_exclusion (initPos : ℕ → ℚ × ℚ) (data : GraphData)
    (width height : ℚ) (evs : List PointerEvent)
    (hwf : wellFormedFrom false evs = true) :
    (¬((evs.foldl applyEvent (ForceGraphState.new initPos data width height)).drag.active =
          true ∧
        (evs.foldl applyEvent (ForceGraphState.new initPos data width height)).pan.active =
          true)) ∧
    (∀ (s : ForceGraphState) (x y : ℚ), s.drag.active = false → s.pan.active = false →
      ((on_mousedown s x y).drag.active = true ∧ (on_mousedown s x y).pan.active = false) ∨
      ((on_mousedown s x y).pan.active = true ∧ (on_mousedown s x y).drag.active = false)) ∧
    (∀ s : ForceGraphState,
      (on_mouseup s).drag.active = false ∧ (on_mouseup s).pan.active = false) ∧
    (∀ s : ForceGraphState,
      (on_mouseleave s).drag.active = false ∧ (on_mouseleave s).pan.active = false) := by
  refine ⟨?_, ?_, ?_, ?_⟩
  · have hinit : ExclInv false (ForceGraphState.new initPos data width height) :=
      ⟨fun hc => Bool.false_ne_true hc.1, fun _ => ⟨rfl, rfl⟩⟩
    obtain ⟨p', hinv'⟩ := exclInv_foldl evs false _ hwf hinit
    exact hinv'.1
  · intro s x y hd hp
    rcases on_mousedown_cases s x y with ⟨h1, h2⟩ | ⟨h1, h2⟩
    · exact Or.inl ⟨h1, by rw [h2]; exact hp⟩
    · exact Or.inr ⟨h1, by rw [h2]; exact hd⟩
  · intro s
    obtain ⟨h1, _, h2⟩ := on_mouseup_clears s
    exact ⟨h1, h2⟩
  · intro s
    obtain ⟨h1, _, h2⟩ := on_mouseleave_clears s
    exact ⟨h1, h2⟩

/-- C7 witness: a concrete well-formed sequence — press on empty space,
drag the pointer, release, press the node, release — never leaves both
drag and pan active. -/
theorem c7_drag_pan_mutual_exclusion_witness :
    wellFormedFrom false
        [PointerEvent.down 100 100, PointerEvent.move 50 50, PointerEvent.up,
         PointerEvent.down 0 0, PointerEvent.up] = true ∧
    ¬(([PointerEvent.down 100 100, PointerEvent.move 50 50, PointerEvent.up,
         PointerEvent.down 0 0, PointerEvent.up].foldl applyEvent
          (ForceGraphState.new (fun _ => (0, 0)) ⟨[⟨"a", none, none, none⟩], []⟩ 0
            0)).drag.active = true ∧
      ([PointerEvent.down 100 100, PointerEvent.move 50 50, PointerEvent.up,
         PointerEvent.down 0 0, PointerEvent.up].foldl applyEvent
          (ForceGraphState.new (fun _ => (0, 0)) ⟨[⟨"a", none, none, none⟩], []⟩ 0
            0)).pan.active = true) := by
  have hwf : wellFormedFrom false
      [PointerEvent.down 100 100, PointerEvent.move 50 50, PointerEvent.up,
       PointerEvent.down 0 0, PointerEvent.up] = true := by
    simp [wellFormedFrom]
  exact ⟨hwf,
    (c7_drag_pan_mutual_exclusion (fun _ => (0, 0)) ⟨[⟨"a", none, none, none⟩], []⟩ 0 0 _
      hwf).1⟩

/-! ## C4 — hit-test zoom invariance -/

/-- Two coincident nodes: both at world `(0, 0)` under the
construction-time transform `(0, 0, 1)`. -/
def coincidentState : ForceGraphState :=
  ForceGraphState.new (fun _ => (0, 0))
    ⟨[⟨"a", none, none, none⟩, ⟨"b", none, none, none⟩], []⟩ 0 0

/-- C4 counterexample: node `0` sits at world `(0, 0)` and the zoom `k = 1`
is inside the clamped range, yet the hit test at node 0's screen position
`(0·k + x, 0·k + y)` returns node `1` — the last node scanned within the
radius — not node `0` as the claim demands for *every* node. -/
theorem c4_counterexample :
    (1 : ℚ) / 10 ≤ coincidentState.transform.k ∧ coincidentState.transform.k ≤ 10 ∧
    (∃ n : NodeData, coincidentState.nodes[0]? = some n ∧ n.x = 0 ∧ n.y = 0) ∧
    coincidentState.node_at_position
        (0 * coincidentState.transform.k + coincidentState.transform.x)
        (0 * coincidentState.transform.k + coincidentState.transform.y) = some 1 ∧
    ¬coincidentState.node_at_position
        (0 * coincidentState.transform.k + coincidentState.transform.x)
        (0 * coincidentState.transform.k + coincidentState.transform.y) = some 0 := by
  refine ⟨?_, ?_, ?_, ?_, ?_⟩ <;>
    norm_num [coincidentState, ForceGraphState.new, ForceGraphState.node_at_position,
      ForceGraphState.screen_to_graph, hitScan, hitNear, HIT_RADIUS, List.enum,
      List.enumFrom]

/-- C4 (amended).  For a node at world position `W` and any zoom `k` in
the clamped range (and any pan offset), the hit test at the screen point
`(W.x·k + x, W.y·k + y)` returns that node's index, *provided no node
later in insertion order also lies within the world-space hit radius of
`W`* (the scan keeps the last match, so a later overlapping node would
win). -/
theorem c4_hit_test_zoom_invariance (s : ForceGraphState) (i : ℕ) (n : NodeData)
    (hn : s.nodes[i]? = some n)
    (hk1 : 1 / 10 ≤ s.transform.k) (_hk2 : s.transform.k ≤ 10)
    (hlast : ∀ (m : ℕ) (n' : NodeData), i < m → s.nodes[m]? = some n' →
      ¬((n'.x - n.x) ^ 2 + (n'.y - n.y) ^ 2 < HIT_RADIUS ^ 2)) :
    s.node_at_position (n.x * s.transform.k + s.transform.x)
      (n.y * s.transform.k + s.transform.y) = some i := by
  have hk0 : s.transform.k ≠ 0 := ne_of_gt (lt_of_lt_of_le (by norm_num) hk1)
  have hg : s.screen_to_graph (n.x * s.transform.k + s.transform.x)
      (n.y * s.transform.k + s.transform.y) = (n.x, n.y) := by
    unfold ForceGraphState.screen_to_graph
    rw [Prod.mk.injEq]
    constructor <;> field_simp
  unfold ForceGraphState.node_at_position
  rw [hg]
  dsimp only
  have hhit : hitNear n.x n.y n = true := by
    rw [hitNear, decide_eq_true_eq]
    norm_num [HIT_RADIUS]
  have hlast' : ∀ (m : ℕ) (n' : NodeData), i < m → s.nodes[m]? = some n' →
      hitNear n.x n.y n' = false := by
    intro m n' hm hmem
    rw [hitNear, decide_eq_false_iff_not]
    exact hlast m n' hm hmem
  simpa using hitScan_last_hit n.x n.y s.nodes i n hn hhit hlast' 0 none

/-- C4 witness: on a one-node state (no later node can overlap), the hit
test at the node's screen position returns the node. -/
theorem c4_hit_test_zoom_invariance_witness :
    (ForceGraphState.new (fun _ => (0, 0)) ⟨[⟨"a", none, none, none⟩], []⟩ 0
        0).nodes[0]? =
      some { x := 0, y := 0, vx := 0, vy := 0, mass := 10, is_anchor := false,
             user_data := { label := none, color := "#1f77b4" } } ∧
    (ForceGraphState.new (fun _ => (0, 0)) ⟨[⟨"a", none, none, none⟩], []⟩ 0
        0).node_at_position
        (0 * (ForceGraphState.new (fun _ => (0, 0)) ⟨[⟨"a", none, none, none⟩], []⟩ 0
            0).transform.k +
          (ForceGraphState.new (fun _ => (0, 0)) ⟨[⟨"a", none, none, none⟩], []⟩ 0
            0).transform.x)
        (0 * (ForceGraphState.new (fun _ => (0, 0)) ⟨[⟨"a", none, none, none⟩], []⟩ 0
            0).transform.k +
          (ForceGraphState.new (fun _ => (0, 0)) ⟨[⟨"a", none, none, none⟩], []⟩ 0
            0).transform.y) = some 0 := by
  have hn : (ForceGraphState.new (fun _ => (0, 0)) ⟨[⟨"a", none, none, none⟩], []⟩ 0
      0).nodes[0]? =
      some { x := 0, y := 0, vx := 0, vy := 0, mass := 10, is_anchor := false,
             user_data := { label := none, color := "#1f77b4" } } := by
    norm_num [ForceGraphState.new, List.enum, List.enumFrom, nodeColor, COLORS]
  refine ⟨hn, ?_⟩
  have h := c4_hit_test_zoom_invariance
    (ForceGraphState.new (fun _ => (0, 0)) ⟨[⟨"a", none, none, none⟩], []⟩ 0 0) 0
    { x := 0, y := 0, vx := 0, vy := 0, mass := 10, is_anchor := false,
      user_data := { label := none, color := "#1f77b4" } } hn
    (by norm_num [ForceGraphState.new]) (by norm_num [ForceGraphState.new]) ?_
  · exact h
  · intro m n' hm hmem
    cases m with
    | zero => omega
    | succ m' =>
      simp [ForceGraphState.new, List.enum, List.enumFrom] at hmem

/-! ## C6 — highlight symmetry -/

theorem set_hover_highlight_t (s : ForceGraphState) (o : Option ℕ) :
    (s.set_hover o).hover.highlight_t = s.hover.highlight_t := by
  unfold ForceGraphState.set_hover
  split
  · rfl
  · cases o with
    | some idx =>
      dsimp only
      split <;> split <;> rfl
    | none =>
      dsimp only
      split <;> rfl

theorem set_hover_delay_nonneg (s : ForceGraphState) (o : Option ℕ)
    (hd : 0 ≤ s.hover.delay_t) : 0 ≤ (s.set_hover o).hover.delay_t := by
  unfold ForceGraphState.set_hover
  split
  · exact hd
  · cases o with
    | some idx =>
      dsimp only
      split
      · split <;> exact hd
      · exact le_refl 0
    | none =>
      dsimp only
      split <;> exact hd

theorem is_highlighted_of_node (s : ForceGraphState) (idx : ℕ)
    (h : s.hover.node = some idx) : s.is_highlighted idx = true := by
  simp [ForceGraphState.is_highlighted, h]

theorem is_highlighted_of_neighbor (s : ForceGraphState) (idx : ℕ)
    (h : idx ∈ s.hover.neighbors) : s.is_highlighted idx = true := by
  simp [ForceGraphState.is_highlighted, h]

/-- One hovered `tick` at `dt = 0.016`: the hover target and neighbor set
are untouched; the activation timer advances by `dt` clamped at the
`0.08` threshold; the eased intensity rises once the timer would reach
the threshold (by at least `(1-h)·1.8·0.016 = 18/625` from `h ≥ 0`) and
is otherwise unchanged. -/
theorem tick_hovered_step (nf : ℕ → ℚ × ℚ) (s : ForceGraphState) (A : ℕ)
    (hnode : s.hover.node = some A) :
    (s.tick nf (2 / 125)).hover.node = some A ∧
    (s.tick nf (2 / 125)).hover.neighbors = s.hover.neighbors ∧
    (0 ≤ s.hover.highlight_t → 0 ≤ (s.tick nf (2 / 125)).hover.highlight_t) ∧
    (s.tick nf (2 / 125)).hover.delay_t = min (s.hover.delay_t + 2 / 125) (2 / 25) ∧
    ((2 : ℚ) / 25 - 2 / 125 ≤ s.hover.delay_t → 0 ≤ s.hover.highlight_t →
      18 / 625 ≤ (s.tick nf (2 / 125)).hover.highlight_t) := by
  have hsome : s.hover.node.isSome = true := by rw [hnode]; rfl
  unfold ForceGraphState.tick
  dsimp only
  rw [if_pos hsome]
  split
  · case isTrue hcond =>
    refine ⟨hnode, rfl, fun hh => by nlinarith, rfl, fun _ hh => by nlinarith⟩
  · case isFalse hcond =>
    refine ⟨hnode, rfl, fun hh => hh, rfl, fun hdge hh => absurd ?_ hcond⟩
    rw [ge_iff_le, le_min_iff]
    constructor <;> linarith

/-- Iterating hovered ticks: the hover target and neighbor set persist,
the intensity stays nonnegative, and the activation timer is bounded
below by its clamped accumulation. -/
theorem hovered_iter_inv (nf : ℕ → ℚ × ℚ) (A : ℕ) :
    ∀ (j : ℕ) (s : ForceGraphState), s.hover.node = some A →
      0 ≤ s.hover.highlight_t → 0 ≤ s.hover.delay_t →
      ((fun st => ForceGraphState.tick nf st (2 / 125))^[j] s).hover.node = some A ∧
      ((fun st => ForceGraphState.tick nf st (2 / 125))^[j] s).hover.neighbors =
        s.hover.neighbors ∧
      0 ≤ ((fun st => ForceGraphState.tick nf st (2 / 125))^[j] s).hover.highlight_t ∧
      min (s.hover.delay_t + j * (2 / 125)) (2 / 25) ≤
        ((fun st => ForceGraphState.tick nf st (2 / 125))^[j] s).hover.delay_t ∧
      0 ≤ ((fun st => ForceGraphState.tick nf st (2 / 125))^[j] s).hover.delay_t := by
  intro j
  induction j with
  | zero =>
    intro s h1 h2 h3
    refine ⟨h1, rfl, h2, ?_, h3⟩
    simp only [Function.iterate_zero, id_eq, Nat.cast_zero, zero_mul, add_zero]
    exact min_le_left _ _
  | succ j ih =>
    intro s h1 h2 h3
    obtain ⟨i1, i2, i3, i4, i5⟩ := ih s h1 h2 h3
    rw [Function.iterate_succ_apply']
    obtain ⟨t1, t2, t3, t4, t5⟩ :=
      tick_hovered_step nf ((fun st => ForceGraphState.tick nf st (2 / 125))^[j] s) A i1
    refine ⟨t1, t2.trans i2, t3 i3, ?_, ?_⟩
    · rw [t4]
      push_cast
      refine le_min ?_ (min_le_right _ _)
      rcases min_cases (s.hover.delay_t + (j : ℚ) * (2 / 125)) ((2 : ℚ) / 25) with
        ⟨hm, _⟩ | ⟨hm, hc⟩
      · rw [hm] at i4
        have h1' : min (s.hover.delay_t + ((j : ℚ) + 1) * (2 / 125)) (2 / 25) ≤
            s.hover.delay_t + ((j : ℚ) + 1) * (2 / 125) := min_le_left _ _
        linarith
      · rw [hm] at i4
        have h1' : min (s.hover.delay_t + ((j : ℚ) + 1) * (2 / 125)) (2 / 25) ≤
            (2 : ℚ) / 25 := min_le_right _ _
        linarith
    · rw [t4]
      exact le_min (by linarith) (by norm_num)

/-- After five hovered frame ticks (0.016 s each — enough to pass the
0.08 s activation delay) the eased intensity is strictly positive, while
the hover target and neighbor set persist. -/
theorem hovered_ticks_positive (nf : ℕ → ℚ × ℚ) (A : ℕ) (s : ForceGraphState)
    (hnode : s.hover.node = some A) (hh : 0 ≤ s.hover.highlight_t)
    (hd : 0 ≤ s.hover.delay_t) :
    0 < ((fun st => ForceGraphState.tick nf st (2 / 125))^[5] s).hover.highlight_t ∧
    ((fun st => ForceGraphState.tick nf st (2 / 125))^[5] s).hover.node = some A ∧
    ((fun st => ForceGraphState.tick nf st (2 / 125))^[5] s).hover.neighbors =
      s.hover.neighbors := by
  obtain ⟨i1, i2, i3, i4, i5⟩ := hovered_iter_inv nf A 4 s hnode hh hd
  have h5 : (fun st => ForceGraphState.tick nf st (2 / 125))^[5] s =
      ForceGraphState.tick nf ((fun st => ForceGraphState.tick nf st (2 / 125))^[4] s)
        (2 / 125) := Function.iterate_succ_apply' _ 4 s
  obtain ⟨t1, t2, _, _, t5⟩ :=
    tick_hovered_step nf ((fun st => ForceGraphState.tick nf st (2 / 125))^[4] s) A i1
  have hd4 : (2 : ℚ) / 25 - 2 / 125 ≤
      ((fun st => ForceGraphState.tick nf st (2 / 125))^[4] s).hover.delay_t := by
    refine le_trans ?_ i4
    rw [le_min_iff]
    push_cast
    constructor <;> linarith
  have hpos := t5 hd4 i3
  rw [h5]
  exact ⟨by linarith, t1, t2.trans i2⟩

/-- C6.  For every edge `(A, B)` recorded at construction:
`set_hover (some A)` puts `B` in the neighbor set and `set_hover (some B)`
puts `A` in it (neighbors are collected in both edge directions), and in
either case, once the highlight activates (five 0.016 s ticks cover the
0.08 s activation delay), the edge's intensity is strictly positive.
The hypotheses `hinvA`/`hinvB` cover the early-return of `set_hover` when
the endpoint is already the hovered node: they hold in every reachable
state, since hovering a node always records its edge neighbors. -/
theorem c6_highlight_symmetry (s : ForceGraphState) (A B : ℕ) (nf : ℕ → ℚ × ℚ)
    (hedge : (A, B) ∈ s.edges)
    (hinvA : s.hover.node = some A → B ∈ s.hover.neighbors)
    (hinvB : s.hover.node = some B → A ∈ s.hover.neighbors)
    (hh : 0 ≤ s.hover.highlight_t) (hd : 0 ≤ s.hover.delay_t) :
    (B ∈ (s.set_hover (some A)).hover.neighbors ∧
      0 < ((fun st => ForceGraphState.tick nf st (2 / 125))^[5]
          (s.set_hover (some A))).edge_intensity A B) ∧
    (A ∈ (s.set_hover (some B)).hover.neighbors ∧
      0 < ((fun st => ForceGraphState.tick nf st (2 / 125))^[5]
          (s.set_hover (some B))).edge_intensity A B) := by
  have main : ∀ (C mem : ℕ), (mem ∈ neighborsOf s.edges C) →
      (s.hover.node = some C → mem ∈ s.hover.neighbors) →
      mem ∈ (s.set_hover (some C)).hover.neighbors ∧
      (s.set_hover (some C)).hover.node = some C := by
    intro C mem hnb hinv
    by_cases hc : s.hover.node = some C
    · have heq : s.set_hover (some C) = s := by
        unfold ForceGraphState.set_hover
        rw [if_pos hc]
      rw [heq]
      exact ⟨hinv hc, hc⟩
    · rw [set_hover_neighbors_of_ne s C hc, set_hover_hover_node]
      exact ⟨hnb, rfl⟩
  have intensity : ∀ (C a b : ℕ),
      (s.set_hover (some C)).hover.node = some C →
      a ∈ (s.set_hover (some C)).hover.neighbors ∨ a = C →
      b ∈ (s.set_hover (some C)).hover.neighbors ∨ b = C →
      0 < ((fun st => ForceGraphState.tick nf st (2 / 125))^[5]
          (s.set_hover (some C))).edge_intensity a b := by
    intro C a b hnode ha hb
    have hh' : 0 ≤ (s.set_hover (some C)).hover.highlight_t := by
      rw [set_hover_highlight_t]; exact hh
    have hd' : 0 ≤ (s.set_hover (some C)).hover.delay_t :=
      set_hover_delay_nonneg s (some C) hd
    obtain ⟨hpos, hnode5, hnb5⟩ :=
      hovered_ticks_positive nf C (s.set_hover (some C)) hnode hh' hd'
    have hha : ((fun st => ForceGraphState.tick nf st (2 / 125))^[5]
        (s.set_hover (some C))).is_highlighted a = true := by
      rcases ha with hmem | hC
      · exact is_highlighted_of_neighbor _ a (hnb5 ▸ hmem)
      · subst hC
        exact is_highlighted_of_node _ a hnode5
    have hhb : ((fun st => ForceGraphState.tick nf st (2 / 125))^[5]
        (s.set_hover (some C))).is_highlighted b = true := by
      rcases hb with hmem | hC
      · exact is_highlighted_of_neighbor _ b (hnb5 ▸ hmem)
      · subst hC
        exact is_highlighted_of_node _ b hnode5
    rw [ForceGraphState.edge_intensity, if_pos (by rw [hha, hhb]; rfl)]
    exact hpos
  obtain ⟨hmA, hnA⟩ := main A B (mem_neighborsOf_left s.edges A B hedge) hinvA
  obtain ⟨hmB, hnB⟩ := main B A (mem_neighborsOf_right s.edges A B hedge) hinvB
  exact ⟨⟨hmA, intensity A A B hnA (Or.inr rfl) (Or.inl hmA)⟩,
         ⟨hmB, intensity B A B hnB (Or.inl hmB) (Or.inr rfl)⟩⟩

/-- C6 witness: a two-node graph with the single edge `(0, 1)`; hovering
node 0 collects node 1 as neighbor (and vice versa) and the edge
intensity is positive after enough ticks. -/
theorem c6_highlight_symmetry_witness :
    ((0, 1) ∈ (ForceGraphState.new (fun _ => (0, 0))
        ⟨[⟨"a", none, none, none⟩, ⟨"b", none, none, none⟩], [⟨"a", "b"⟩]⟩ 0 0).edges) ∧
    1 ∈ ((ForceGraphState.new (fun _ => (0, 0))
        ⟨[⟨"a", none, none, none⟩, ⟨"b", none, none, none⟩], [⟨"a", "b"⟩]⟩ 0
        0).set_hover (some 0)).hover.neighbors ∧
    0 < ((fun st => ForceGraphState.tick (fun _ => (0, 0)) st (2 / 125))^[5]
        ((ForceGraphState.new (fun _ => (0, 0))
          ⟨[⟨"a", none, none, none⟩, ⟨"b", none, none, none⟩], [⟨"a", "b"⟩]⟩ 0
          0).set_hover (some 0))).edge_intensity 0 1 := by
  have hedge : ((0, 1) : ℕ × ℕ) ∈ (ForceGraphState.new (fun _ => (0, 0))
      ⟨[⟨"a", none, none, none⟩, ⟨"b", none, none, none⟩], [⟨"a", "b"⟩]⟩ 0 0).edges := by
    simp +decide [ForceGraphState.new, idToIdx, List.enum, List.enumFrom]
  have hnone : (ForceGraphState.new (fun _ => (0, 0))
      ⟨[⟨"a", none, none, none⟩, ⟨"b", none, none, none⟩], [⟨"a", "b"⟩]⟩ 0
      0).hover.node = none := rfl
  have h := c6_highlight_symmetry (ForceGraphState.new (fun _ => (0, 0))
      ⟨[⟨"a", none, none, none⟩, ⟨"b", none, none, none⟩], [⟨"a", "b"⟩]⟩ 0 0) 0 1
    (fun _ => (0, 0)) hedge
    (fun hc => absurd (hnone ▸ hc) (by simp))
    (fun hc => absurd (hnone ▸ hc) (by simp))
    (le_refl 0) (le_refl 0)
  exact ⟨hedge, h.1.1, h.1.2⟩

/-! ## C3 — highlight decay convergence -/

/-- One un-hovered `tick` at `dt = 0.016`: the eased step
`h + (0 - h) · 1.26 · 0.016` equals `h · (3062/3125)`; when that value
drops below `0.01` the intensity snaps to exactly `0` and the
previous-hover snapshot is cleared, otherwise the intensity takes that
value and the snapshot is untouched. -/
theorem tick_unhovered_step (nf : ℕ → ℚ × ℚ) (s : ForceGraphState)
    (h : s.hover.node = none) :
    (s.tick nf (2 / 125)).hover.node = none ∧
    (s.hover.highlight_t * (3062 / 3125) < 1 / 100 →
      (s.tick nf (2 / 125)).hover.highlight_t = 0 ∧
      (s.tick nf (2 / 125)).hover.prev_node = none ∧
      (s.tick nf (2 / 125)).hover.prev_neighbors = ∅) ∧
    (¬(s.hover.highlight_t * (3062 / 3125) < 1 / 100) →
      (s.tick nf (2 / 125)).hover.highlight_t = s.hover.highlight_t * (3062 / 3125) ∧
      (s.tick nf (2 / 125)).hover.prev_node = s.hover.prev_node ∧
      (s.tick nf (2 / 125)).hover.prev_neighbors = s.hover.prev_neighbors) := by
  have hns : ¬(s.hover.node.isSome = true) := by
    rw [h]
    simp
  have hrw : s.hover.highlight_t + (0 - s.hover.highlight_t) * (63 / 50) * (2 / 125) =
      s.hover.highlight_t * (3062 / 3125) := by ring
  unfold ForceGraphState.tick
  dsimp only
  rw [if_neg hns]
  split
  · case isTrue hc =>
    refine ⟨h, fun _ => ⟨rfl, rfl, rfl⟩, fun hnc => absurd ?_ hnc⟩
    rw [← hrw]
    exact hc
  · case isFalse hc =>
    refine ⟨h, fun hyes => absurd ?_ hc, fun _ => ⟨hrw, rfl, rfl⟩⟩
    rw [hrw]
    exact hyes

/-- The cleared, fully-faded hover sub-state. -/
def FadedOut (s : ForceGraphState) : Prop :=
  s.hover.highlight_t = 0 ∧ s.hover.prev_node = none ∧ s.hover.prev_neighbors = ∅

theorem fadedOut_absorbing (nf : ℕ → ℚ × ℚ) (s : ForceGraphState)
    (hnode : s.hover.node = none) (hz : FadedOut s) :
    FadedOut (s.tick nf (2 / 125)) := by
  obtain ⟨_, hzero, _⟩ := tick_unhovered_step nf s hnode
  exact hzero (by rw [hz.1]; norm_num)

theorem fadedOut_iterate (nf : ℕ → ℚ × ℚ) :
    ∀ (m : ℕ) (s : ForceGraphState), s.hover.node = none → FadedOut s →
      FadedOut ((fun st => ForceGraphState.tick nf st (2 / 125))^[m] s) := by
  intro m
  induction m with
  | zero => exact fun s _ hz => hz
  | succ m ih =>
    intro s hnode hz
    rw [Function.iterate_succ_apply]
    exact ih _ (tick_hover_node nf s (2 / 125) ▸ hnode)
      (fadedOut_absorbing nf s hnode hz)

theorem unhovered_iter_inv (nf : ℕ → ℚ × ℚ) :
    ∀ (j : ℕ) (s : ForceGraphState), s.hover.node = none → 0 ≤ s.hover.highlight_t →
      ((fun st => ForceGraphState.tick nf st (2 / 125))^[j] s).hover.node = none ∧
      0 ≤ ((fun st => ForceGraphState.tick nf st (2 / 125))^[j] s).hover.highlight_t ∧
      (FadedOut ((fun st => ForceGraphState.tick nf st (2 / 125))^[j] s) ∨
        ((fun st => ForceGraphState.tick nf st (2 / 125))^[j] s).hover.highlight_t =
          s.hover.highlight_t * (3062 / 3125) ^ j) := by
  intro j
  induction j with
  | zero =>
    intro s h1 h2
    refine ⟨h1, h2, Or.inr ?_⟩
    simp
  | succ j ih =>
    intro s h1 h2
    obtain ⟨i1, i2, i3⟩ := ih s h1 h2
    rw [Function.iterate_succ_apply']
    obtain ⟨t1, t2, t3⟩ :=
      tick_unhovered_step nf ((fun st => ForceGraphState.tick nf st (2 / 125))^[j] s) i1
    refine ⟨t1, ?_, ?_⟩
    · by_cases hc : ((fun st => ForceGraphState.tick nf st (2 / 125))^[j]
          s).hover.highlight_t * (3062 / 3125) < 1 / 100
      · rw [(t2 hc).1]
      · rw [(t3 hc).1]
        nlinarith
    · rcases i3 with hz | heq
      · exact Or.inl (fadedOut_absorbing nf _ i1 hz)
      · by_cases hc : ((fun st => ForceGraphState.tick nf st (2 / 125))^[j]
            s).hover.highlight_t * (3062 / 3125) < 1 / 100
        · exact Or.inl ⟨(t2 hc).1, (t2 hc).2.1, (t2 hc).2.2⟩
        · refine Or.inr ?_
          rw [(t3 hc).1, heq]
          ring

/-- A tick that lands the intensity exactly on `0` has cleared the
previous-hover snapshot in the same step: the non-clearing branch leaves
the intensity `≥ 0.01 > 0`. -/
theorem tick_zero_clears (nf : ℕ → ℚ × ℚ) (s : ForceGraphState)
    (hnode : s.hover.node = none)
    (hzero : (s.tick nf (2 / 125)).hover.highlight_t = 0) :
    (s.tick nf (2 / 125)).hover.prev_node = none ∧
    (s.tick nf (2 / 125)).hover.prev_neighbors = ∅ := by
  obtain ⟨_, t2, t3⟩ := tick_unhovered_step nf s hnode
  by_cases hc : s.hover.highlight_t * (3062 / 3125) < 1 / 100
  · exact ⟨(t2 hc).2.1, (t2 hc).2.2⟩
  · exfalso
    rw [(t3 hc).1] at hzero
    rw [hzero] at hc
    exact hc (by norm_num)

theorem decay_const_pow_small : ((3062 : ℚ) / 3125) ^ 251 < 1 / 100 := by
  norm_num

/-- C3.  With nothing hovered and intensity in `[0, 1]`, repeated
`tick (0.016)` calls with no further interaction drive the intensity to
exactly `0` within a bounded number of steps — `251` suffices, and it
stays `0` with the previous-hover snapshot cleared from then on — and at
whichever step the intensity first becomes `0`, the previous-hover
snapshot is cleared in that very state. -/
theorem c3_highlight_decay_convergence (nf : ℕ → ℚ × ℚ) (s : ForceGraphState)
    (hnode : s.hover.node = none) (hh0 : 0 ≤ s.hover.highlight_t)
    (hh1 : s.hover.highlight_t ≤ 1) :
    (∀ n : ℕ, 251 ≤ n →
      ((fun st => ForceGraphState.tick nf st (2 / 125))^[n] s).hover.highlight_t = 0 ∧
      ((fun st => ForceGraphState.tick nf st (2 / 125))^[n] s).hover.prev_node = none ∧
      ((fun st => ForceGraphState.tick nf st (2 / 125))^[n] s).hover.prev_neighbors = ∅) ∧
    (∀ n : ℕ,
      ((fun st => ForceGraphState.tick nf st (2 / 125))^[n + 1] s).hover.highlight_t = 0 →
      ((fun st => ForceGraphState.tick nf st (2 / 125))^[n + 1] s).hover.prev_node = none ∧
      ((fun st => ForceGraphState.tick nf st (2 / 125))^[n + 1] s).hover.prev_neighbors =
        ∅) := by
  have hz251 : FadedOut ((fun st => ForceGraphState.tick nf st (2 / 125))^[251] s) ∧
      ((fun st => ForceGraphState.tick nf st (2 / 125))^[251] s).hover.node = none := by
    obtain ⟨i1, i2, i3⟩ := unhovered_iter_inv nf 250 s hnode hh0
    have h251 : (fun st => ForceGraphState.tick nf st (2 / 125))^[251] s =
        ForceGraphState.tick nf ((fun st => ForceGraphState.tick nf st (2 / 125))^[250] s)
          (2 / 125) := Function.iterate_succ_apply' _ 250 s
    obtain ⟨t1, t2, _⟩ :=
      tick_unhovered_step nf ((fun st => ForceGraphState.tick nf st (2 / 125))^[250] s) i1
    rcases i3 with hzd | heq
    · constructor
      · rw [h251]
        exact fadedOut_absorbing nf _ i1 hzd
      · rw [h251]
        exact t1
    · have hsmall : ((fun st => ForceGraphState.tick nf st (2 / 125))^[250]
          s).hover.highlight_t * (3062 / 3125) < 1 / 100 := by
        rw [heq]
        have hc0 : (0 : ℚ) ≤ (3062 / 3125 : ℚ) ^ 250 * (3062 / 3125) := by positivity
        have hle : s.hover.highlight_t * (3062 / 3125) ^ 250 * (3062 / 3125) ≤
            (3062 / 3125 : ℚ) ^ 250 * (3062 / 3125) := by nlinarith
        have hlt : ((3062 : ℚ) / 3125) ^ 250 * (3062 / 3125) < 1 / 100 := by
          have hpow : ((3062 : ℚ) / 3125) ^ 250 * (3062 / 3125) = (3062 / 3125) ^ 251 := by
            ring
          rw [hpow]
          exact decay_const_pow_small
        linarith
      constructor
      · rw [h251]
        exact t2 hsmall
      · rw [h251]
        exact t1
  constructor
  · intro n hn
    have hsplit : (fun st => ForceGraphState.tick nf st (2 / 125))^[n] s =
        (fun st => ForceGraphState.tick nf st (2 / 125))^[n - 251]
          ((fun st => ForceGraphState.tick nf st (2 / 125))^[251] s) := by
      rw [← Function.iterate_add_apply]
      congr 1
      omega
    rw [hsplit]
    exact fadedOut_iterate nf (n - 251) _ hz251.2 hz251.1
  · intro n hzero
    have hn : ((fun st => ForceGraphState.tick nf st (2 / 125))^[n] s).hover.node = none :=
      (unhovered_iter_inv nf n s hnode hh0).1
    have hstep : (fun st => ForceGraphState.tick nf st (2 / 125))^[n + 1] s =
        ForceGraphState.tick nf ((fun st => ForceGraphState.tick nf st (2 / 125))^[n] s)
          (2 / 125) := Function.iterate_succ_apply' _ n s
    rw [hstep] at hzero ⊢
    exact tick_zero_clears nf _ hn hzero

/-- A one-node state in mid fade-out: nothing hovered, intensity `1/2`,
with a previous-hover snapshot still set. -/
def fadeState : ForceGraphState :=
  { ForceGraphState.new (fun _ => (0, 0)) ⟨[⟨"a", none, none, none⟩], []⟩ 0 0 with
    hover := { node := none, neighbors := ∅, highlight_t := 1 / 2, prev_node := some 0,
               prev_neighbors := ∅, delay_t := 0 } }

/-- C3 witness: from intensity `1/2` with a snapshot still set, 251
un-hovered ticks reach exactly `0` with the snapshot cleared. -/
theorem c3_highlight_decay_convergence_witness :
    fadeState.hover.node = none ∧ 0 ≤ fadeState.hover.highlight_t ∧
    fadeState.hover.highlight_t ≤ 1 ∧
    ((fun st => ForceGraphState.tick (fun _ => (0, 0)) st (2 / 125))^[251]
        fadeState).hover.highlight_t = 0 ∧
    ((fun st => ForceGraphState.tick (fun _ => (0, 0)) st (2 / 125))^[251]
        fadeState).hover.prev_node = none := by
  have h := c3_highlight_decay_convergence (fun _ => (0, 0)) fadeState rfl
    (by norm_num [fadeState]) (by norm_num [fadeState])
  obtain ⟨h1, h2, _⟩ := h.1 251 le_rfl
  exact ⟨rfl, by norm_num [fadeState], by norm_num [fadeState], h1, h2⟩

/-! ## C1 — anchoring idempotence -/

theorem on_mousemove_dragging (s : ForceGraphState) (x y : ℚ) (idx : ℕ)
    (hd : s.drag.active = true) (hni : s.drag.node_idx = some idx) :
    on_mousemove s x y =
      { s with nodes := dragMoveNodes idx (s.drag.node_start_x + (x - s.drag.start_x) / s.transform.k) (s.drag.node_start_y + (y - s.drag.start_y) / s.transform.k) s.nodes } := by
  unfold on_mousemove
  simp only [hd, eq_self_iff_true, if_true, hni]

theorem on_mouseup_dragging (s : ForceGraphState) (idx : ℕ)
    (hd : s.drag.active = true) (hni : s.drag.node_idx = some idx) :
    on_mouseup s = { s with nodes := anchorNode idx s.nodes, drag := { s.drag with active := false, node_idx := none }, pan := { s.pan with active := false } } := by
  unfold on_mouseup
  simp only [hd, eq_self_iff_true, if_true, hni]

theorem ticks_preserve_anchored (A : ℕ) (a : NodeData) (ha : a.is_anchor = true) :
    ∀ (ticks : List ((ℕ → ℚ × ℚ) × ℚ)) (s : ForceGraphState), s.nodes[A]? = some a →
      (ticks.foldl (fun st t => ForceGraphState.tick t.1 st t.2) s).nodes[A]? = some a := by
  intro ticks
  induction ticks with
  | nil => exact fun s h => h
  | cons t rest ih =>
    intro s h
    rw [List.foldl_cons]
    apply ih
    rw [tick_nodes]
    exact graphUpdate_anchored t.1 t.2 s.nodes A a h ha

/-- While a drag of node `idx` is active, any run of mouse-moves leaves
the drag record, the transform and every other node untouched, and the
dragged node's position is set absolutely from the drag-start snapshot by
the last move (in screen-space delta divided by the zoom), with
`is_anchor` set. -/
theorem dragging_fold_inv (idx : ℕ) (x0 y0 nsx nsy : ℚ) :
    ∀ (moves : List (ℚ × ℚ)) (s : ForceGraphState),
      s.drag = { active := true, node_idx := some idx, start_x := x0, start_y := y0,
                 node_start_x := nsx, node_start_y := nsy } →
      (moves.foldl (fun st p => on_mousemove st p.1 p.2) s).drag = s.drag ∧
      (moves.foldl (fun st p => on_mousemove st p.1 p.2) s).transform = s.transform ∧
      (∀ j : ℕ, j ≠ idx →
        (moves.foldl (fun st p => on_mousemove st p.1 p.2) s).nodes[j]? = s.nodes[j]?) ∧
      ∀ m : ℚ × ℚ, moves.getLast? = some m →
        (moves.foldl (fun st p => on_mousemove st p.1 p.2) s).nodes[idx]? =
          (s.nodes[idx]?).map (fun n =>
            { n with x := nsx + (m.1 - x0) / s.transform.k,
                     y := nsy + (m.2 - y0) / s.transform.k, is_anchor := true }) := by
  intro moves
  induction moves with
  | nil =>
    intro s hdrag
    refine ⟨rfl, rfl, fun j _ => rfl, fun m hm => ?_⟩
    simp at hm
  | cons mv rest ih =>
    intro s hdrag
    have hmv : on_mousemove s mv.1 mv.2 =
        { s with nodes := dragMoveNodes idx (nsx + (mv.1 - x0) / s.transform.k) (nsy + (mv.2 - y0) / s.transform.k) s.nodes } := by
      rw [on_mousemove_dragging s mv.1 mv.2 idx (by rw [hdrag]) (by rw [hdrag])]
      rw [hdrag]
    have hfold : (mv :: rest).foldl (fun st p => on_mousemove st p.1 p.2) s =
        rest.foldl (fun st p => on_mousemove st p.1 p.2)
          { s with nodes := dragMoveNodes idx (nsx + (mv.1 - x0) / s.transform.k) (nsy + (mv.2 - y0) / s.transform.k) s.nodes } := by
      rw [List.foldl_cons, hmv]
    obtain ⟨ih1, ih2, ih3, ih4⟩ := ih
      { s with nodes := dragMoveNodes idx (nsx + (mv.1 - x0) / s.transform.k) (nsy + (mv.2 - y0) / s.transform.k) s.nodes } (by rw [hdrag])
    rw [hfold]
    refine ⟨ih1, ih2, ?_, ?_⟩
    · intro j hj
      rw [ih3 j hj]
      dsimp only
      rw [dragMoveNodes_getElem]
      simp [hj]
    · intro m hm
      cases rest with
      | nil =>
        have hmeq : m = mv := by simpa using hm.symm
        subst hmeq
        simp only [List.foldl_nil]
        rw [dragMoveNodes_getElem]
        simp
      | cons r rs =>
        have hm' : (r :: rs).getLast? = some m := by
          rwa [List.getLast?_cons_cons] at hm
        rw [ih4 m hm']
        dsimp only
        rw [dragMoveNodes_getElem]
        rw [Option.map_map]
        cases hidx : s.nodes[idx]? with
        | none => rfl
        | some n =>
          simp only [Option.map_some, Function.comp_apply, Option.some.injEq]
          rfl

/-- C1.  Dragging node `A` — a mouse-down hitting `A`, one or more
mouse-moves (the last at screen point `m`), then mouse-up — leaves `A`
with `is_anchor = true` at exactly the position
`start + (m - press) / k`, and that node entry (position included) is
unchanged by any number of subsequent `tick` calls with no further
pointer interaction, for every sequence of net forces (anchored nodes are
excluded from integration). -/
theorem c1_anchoring_idempotence (s : ForceGraphState) (x y : ℚ) (A : ℕ) (n0 : NodeData)
    (hhit : s.node_at_position x y = some A) (hn : s.nodes[A]? = some n0)
    (moves : List (ℚ × ℚ)) (m : ℚ × ℚ) (hlast : moves.getLast? = some m)
    (ticks : List ((ℕ → ℚ × ℚ) × ℚ)) :
    (on_mouseup (moves.foldl (fun st p => on_mousemove st p.1 p.2)
        (on_mousedown s x y))).nodes[A]? =
      some { n0 with x := n0.x + (m.1 - x) / s.transform.k,
                     y := n0.y + (m.2 - y) / s.transform.k, is_anchor := true } ∧
    (ticks.foldl (fun st t => ForceGraphState.tick t.1 st t.2)
        (on_mouseup (moves.foldl (fun st p => on_mousemove st p.1 p.2)
          (on_mousedown s x y)))).nodes[A]? =
      some { n0 with x := n0.x + (m.1 - x) / s.transform.k,
                     y := n0.y + (m.2 - y) / s.transform.k, is_anchor := true } := by
  have hdown := on_mousedown_hit s x y A n0 hhit hn
  obtain ⟨f1, f2, f3, f4⟩ := dragging_fold_inv A x y n0.x n0.y moves
    (on_mousedown s x y) (by rw [hdown])
  have hs2idx : (moves.foldl (fun st p => on_mousemove st p.1 p.2)
      (on_mousedown s x y)).nodes[A]? =
      some { n0 with x := n0.x + (m.1 - x) / s.transform.k,
                     y := n0.y + (m.2 - y) / s.transform.k, is_anchor := true } := by
    rw [f4 m hlast, hdown]
    dsimp only
    rw [hn]
    rfl
  have hs2drag : (moves.foldl (fun st p => on_mousemove st p.1 p.2)
      (on_mousedown s x y)).drag.active = true := by
    rw [f1, hdown]
  have hs2ni : (moves.foldl (fun st p => on_mousemove st p.1 p.2)
      (on_mousedown s x y)).drag.node_idx = some A := by
    rw [f1, hdown]
  have hup := on_mouseup_dragging _ A hs2drag hs2ni
  have hs3 : (on_mouseup (moves.foldl (fun st p => on_mousemove st p.1 p.2)
      (on_mousedown s x y))).nodes[A]? =
      some { n0 with x := n0.x + (m.1 - x) / s.transform.k,
                     y := n0.y + (m.2 - y) / s.transform.k, is_anchor := true } := by
    rw [hup]
    dsimp only
    rw [anchorNode_getElem, hs2idx]
    simp
  exact ⟨hs3,
    ticks_preserve_anchored A _ rfl ticks _ hs3⟩

/-- C1 witness: on a one-node state, press the node at `(0, 0)`, move to
`(5, 7)`, release: the node is anchored at world `(5, 7)` and one
subsequent tick under a nonzero net force leaves it there. -/
theorem c1_anchoring_idempotence_witness :
    (ForceGraphState.new (fun _ => (0, 0)) ⟨[⟨"a", none, none, none⟩], []⟩ 0
        0).node_at_position 0 0 = some 0 ∧
    ([((5 : ℚ), (7 : ℚ))].getLast? = some (5, 7)) ∧
    (on_mouseup ([((5 : ℚ), (7 : ℚ))].foldl (fun st p => on_mousemove st p.1 p.2)
        (on_mousedown (ForceGraphState.new (fun _ => (0, 0))
          ⟨[⟨"a", none, none, none⟩], []⟩ 0 0) 0 0))).nodes[0]? =
      some { x := 0 + ((5 : ℚ) - 0) / 1, y := 0 + ((7 : ℚ) - 0) / 1, vx := 0, vy := 0,
             mass := 10, is_anchor := true,
             user_data := { label := none, color := "#1f77b4" } } ∧
    (([((fun _ => ((3 : ℚ), (4 : ℚ))), (2 / 125 : ℚ))].foldl
        (fun st t => ForceGraphState.tick t.1 st t.2)
        (on_mouseup ([((5 : ℚ), (7 : ℚ))].foldl (fun st p => on_mousemove st p.1 p.2)
          (on_mousedown (ForceGraphState.new (fun _ => (0, 0))
            ⟨[⟨"a", none, none, none⟩], []⟩ 0 0) 0 0)))).nodes[0]? =
      some { x := 0 + ((5 : ℚ) - 0) / 1, y := 0 + ((7 : ℚ) - 0) / 1, vx := 0, vy := 0,
             mass := 10, is_anchor := true,
             user_data := { label := none, color := "#1f77b4" } }) := by
  have hhit : (ForceGraphState.new (fun _ => (0, 0)) ⟨[⟨"a", none, none, none⟩], []⟩ 0
      0).node_at_position 0 0 = some 0 := by
    norm_num [ForceGraphState.new, ForceGraphState.node_at_position,
      ForceGraphState.screen_to_graph, hitScan, hitNear, HIT_RADIUS, List.enum,
      List.enumFrom]
  have hn : (ForceGraphState.new (fun _ => (0, 0)) ⟨[⟨"a", none, none, none⟩], []⟩ 0
      0).nodes[0]? =
      some { x := 0, y := 0, vx := 0, vy := 0, mass := 10, is_anchor := false,
             user_data := { label := none, color := "#1f77b4" } } := by
    norm_num [ForceGraphState.new, List.enum, List.enumFrom, nodeColor, COLORS]
  have h := c1_anchoring_idempotence (ForceGraphState.new (fun _ => (0, 0))
      ⟨[⟨"a", none, none, none⟩], []⟩ 0 0) 0 0 0
    { x := 0, y := 0, vx := 0, vy := 0, mass := 10, is_anchor := false,
      user_data := { label := none, color := "#1f77b4" } } hhit hn
    [((5 : ℚ), (7 : ℚ))] (5, 7) (by simp)
    [((fun _ => ((3 : ℚ), (4 : ℚ))), (2 / 125 : ℚ))]
  exact ⟨hhit, by simp, h.1, h.2⟩

end ForceGraphCanvas
